import Mathlib

/-!
Verification development for the yt-helper repository (src/yt_helper/main.py).

The Python module is an orchestration layer over two external tools (yt-dlp
and ffmpeg) and sibling helper libraries (os_helper, audio_helper,
video_helper).  We give a shallow embedding of its five operations:

* `default_ytdlp_options`
* `aux_ytdlp_meta_data` (the source's `_aux_ytdlp_meta_data`)
* `video_url_meta_data`
* `is_valid_video_url`
* `download_thumbnail`, `download_audio`, `download_video`,
  `download_bad_video_with_good_sound`

External collaborators (the extraction tool, the transcoders, the PIL image
library, URL reachability) are modelled as an abstract environment `Env` of
pure functions; the filesystem is an explicit association list from
structured paths to abstract file data; raising a Python exception is
`Except.error`; each computation additionally records a trace of the
externally visible events it performed (scratch-directory acquisition and
release, extractor invocations, transcoder invocations, mux invocations).

Paths are modelled structurally as (folder, basename, extension) triples;
this embeds the source's systematic use of
`osh.folder_name_ext(osh.relative2absolute_path(p))` and
`osh.os_path_constructor` without string parsing.
-/

/-- A Python dict value in a yt-dlp metadata mapping: `none` models Python
`None` (and, through `pyGet`, an absent key, exactly like `dict.get`). -/
abbrev Val := Option String

/-- A yt-dlp metadata mapping (a Python dict), as an association list. -/
abbrev MetaMap := List (String × Val)

/-- First-match lookup in an association list (Python dict indexing). -/
def lookupKey {β : Type} (m : List (String × β)) (k : String) : Option β :=
  match m with
  | [] => none
  | (k', v) :: rest => if k' = k then some v else lookupKey rest k

/-- Python `d[k] = v`: replace the first binding of `k`, or append one. -/
def dictSetV {β : Type} (m : List (String × β)) (k : String) (v : β) :
    List (String × β) :=
  match m with
  | [] => [(k, v)]
  | (k', v') :: rest =>
    if k' = k then (k, v) :: rest else (k', v') :: dictSetV rest k v

/-- Python `d.get(k)`: `None` for an absent key or a key bound to `None`. -/
def pyGet (m : MetaMap) (k : String) : Val :=
  match lookupKey m k with
  | some v => v
  | none => none

/-- Python `k in d`. -/
def containsKey {β : Type} (m : List (String × β)) (k : String) : Bool :=
  (lookupKey m k).isSome

/-- Python `s.lower()`. -/
def pyLower (s : String) : String :=
  ⟨s.data.map Char.toLower⟩

/-- `osh.emptystring` on a string argument. -/
def emptystring (s : String) : Bool := s.isEmpty

/-- Abstract content of a file on disk, carrying exactly the observations
the source makes of files: the sibling validators
(`ah.is_valid_audio_file`, `vh.is_valid_video_file`) and the video
dimensions the tests read (height, audio-track presence). -/
structure FileData where
  valid_audio : Bool
  valid_video : Bool
  height : Nat
  has_sound : Bool
  deriving DecidableEq, Repr

/-- A filesystem path, decomposed the way `osh.folder_name_ext` does. -/
structure FPath where
  folder : String
  base : String
  ext : String
  deriving DecidableEq, Repr

/-- The filesystem: newest-first association list of paths to contents. -/
abbrev FS := List (FPath × FileData)

/-- First-match lookup of a path (reading a file). -/
def lookupFS (fs : FS) (p : FPath) : Option FileData :=
  match fs with
  | [] => none
  | (q, d) :: rest => if q = p then some d else lookupFS rest p

/-- `osh.file_exists` / `osh.checkfile`'s existence test. -/
def fileExistsAt (fs : FS) (p : FPath) : Bool :=
  (lookupFS fs p).isSome

/-- `ah.is_valid_audio_file` applied to a path (false for a missing file). -/
def isValidAudioAt (fs : FS) (p : FPath) : Bool :=
  match lookupFS fs p with
  | some d => d.valid_audio
  | none => false

/-- `vh.is_valid_video_file` applied to a path (false for a missing file). -/
def isValidVideoAt (fs : FS) (p : FPath) : Bool :=
  match lookupFS fs p with
  | some d => d.valid_video
  | none => false

/-- Remove every file inside a directory (temp-folder creation/deletion). -/
def removeDirFS (dir : String) (fs : FS) : FS :=
  fs.filter (fun pd => pd.1.folder ≠ dir)

/-- Remove one path (the source half of `osh.movefile`). -/
def removePathFS (p : FPath) (fs : FS) : FS :=
  fs.filter (fun pd => pd.1 ≠ p)

/-- `glob.glob(f"{dir}/{base}.*")`: files in `dir` whose basename is
`base`, returned as (extension, content) pairs. -/
def globFS (fs : FS) (dir base : String) : List (String × FileData) :=
  fs.filterMap (fun pd =>
    if pd.1.folder = dir ∧ pd.1.base = base then some (pd.1.ext, pd.2) else none)

/-- Which yt-dlp configuration a download call was built with:
`thumb` is `skip_download`+`writethumbnail`, `audio` is
`default_ytdlp_options(audio=True)`, `video` is
`default_ytdlp_options(video=True)`, all with `outtmpl` set. -/
inductive DlMode where
  | thumb
  | audio
  | video
  deriving DecidableEq, Repr

/-- Externally visible events of one operation. -/
inductive Ev where
  /-- `osh.temp_folder()` entered (scratch directory `k` created). -/
  | acquireScratch (k : Nat)
  /-- `osh.temp_folder()` exited (scratch directory `k` deleted). -/
  | releaseScratch (k : Nat)
  /-- `yt_dlp.YoutubeDL(opts).download([url])` invoked. -/
  | ydlDownload (url : String) (mode : DlMode)
  /-- `ydl.extract_info(url, download=False)` invoked. -/
  | ydlMeta (url : String)
  /-- `ah.sound_converter` invoked. -/
  | soundConvert
  /-- `vh.video_converter` invoked (plain format conversion). -/
  | videoConvert
  /-- `vh.video_converter(..., without_sound=True, height=240)` invoked. -/
  | videoConvertStrip
  /-- `PIL` re-encode (`Image.open` + `img.save`) invoked. -/
  | pilConvert
  /-- `ffmpeg.output(v, a, out, codec="copy", acodec="aac", ...).run()`. -/
  | muxCopyAac
  deriving DecidableEq, Repr

/-- Behaviour of the external collaborators, per the contracts in the spec's
section 6.  `Option` results model invocations that may raise. -/
structure Env where
  /-- `osh.verbosity()`. -/
  verbosity : Nat
  /-- `osh.is_working_url`. -/
  working_url : String → Bool
  /-- `_aux_ytdlp_meta_data`'s outcome: metadata, or `none` when
  `extract_info` raises or returns `None` (the `except` swallows both). -/
  ydl_meta : String → Option MetaMap
  /-- Files (extension, content) the extractor writes for the output
  template `{dir}/{base}.%(ext)s`; `none` when `ydl.download` raises. -/
  ydl_files : String → DlMode → Option (List (String × FileData))
  /-- `ah.sound_converter input output freq`; the `Option Nat` is the
  `freq` keyword (absent in the composite's mp3 conversion). -/
  sound_convert : FileData → Option Nat → FileData
  /-- `vh.video_converter input output` (plain). -/
  video_convert : FileData → FileData
  /-- `vh.video_converter input output without_sound=True height=240`. -/
  video_convert_strip240 : FileData → FileData
  /-- `Image.open(src); img.save(dst)` re-encoding to the destination
  extension; `none` when PIL raises. -/
  pil_save : FileData → String → Option FileData
  /-- `ffmpeg.output(video, audio, out, codec="copy", acodec="aac")`:
  stream-copied video multiplexed with AAC-encoded audio; `none` when the
  mux raises. -/
  mux_copy_aac : FileData → FileData → Option FileData

/-- The outcome of one embedded computation: Python return value or raised
exception, final filesystem, next fresh scratch id, event trace. -/
structure Res (α : Type) where
  res : Except String α
  fs : FS
  fresh : Nat
  ev : List Ev
  deriving Repr

/-- The computation type: fresh-scratch-id and filesystem in, `Res` out. -/
def M (α : Type) : Type := Nat → FS → Res α

/-- Return. -/
def retM {α : Type} (a : α) : M α := fun n fs => ⟨Except.ok a, fs, n, []⟩

/-- Sequencing; a raised exception propagates but keeps state and trace. -/
def bindM {α β : Type} (x : M α) (f : α → M β) : M β := fun n fs =>
  match x n fs with
  | ⟨Except.ok a, fs1, n1, ev1⟩ =>
    match f a n1 fs1 with
    | ⟨r2, fs2, n2, ev2⟩ => ⟨r2, fs2, n2, ev1 ++ ev2⟩
  | ⟨Except.error e, fs1, n1, ev1⟩ => ⟨Except.error e, fs1, n1, ev1⟩

/-- Raise (`osh.error`, or an uncaught Python exception). -/
def throwM {α : Type} (msg : String) : M α :=
  fun n fs => ⟨Except.error msg, fs, n, []⟩

/-- `osh.check(b, msg)`: no-op when `b`, raise otherwise. -/
def checkM (b : Bool) (msg : String) : M Unit :=
  fun n fs => ⟨if b then Except.ok () else Except.error msg, fs, n, []⟩

/-- Record an event. -/
def emitM (e : Ev) : M Unit := fun n fs => ⟨Except.ok (), fs, n, [e]⟩

/-- Observe the filesystem (validators, `osh.checkfile`, reads). -/
def getFsM : M FS := fun n fs => ⟨Except.ok fs, fs, n, []⟩

/-- Write a file (output of a transcoder or of `img.save`). -/
def writeM (p : FPath) (d : FileData) : M Unit :=
  fun n fs => ⟨Except.ok (), (p, d) :: fs, n, []⟩

/-- `osh.copyfile`. -/
def copyfileM (src dst : FPath) : M Unit := fun n fs =>
  match lookupFS fs src with
  | none => ⟨Except.error "copyfile: missing source", fs, n, []⟩
  | some d => ⟨Except.ok (), (dst, d) :: fs, n, []⟩

/-- `osh.movefile`. -/
def movefileM (src dst : FPath) : M Unit := fun n fs =>
  match lookupFS fs src with
  | none => ⟨Except.error "movefile: missing source", fs, n, []⟩
  | some d => ⟨Except.ok (), (dst, d) :: removePathFS src fs, n, []⟩

/-- Name of the `k`-th scratch directory. -/
def scratchName (k : Nat) : String := "scratch-" ++ toString k

/-- `with osh.temp_folder() as temp_directory:` — a fresh empty directory
exists for the body and is deleted on every exit path, normal or raising
(Python context-manager semantics). -/
def withTemp {α : Type} (body : String → M α) : M α := fun n fs =>
  match body (scratchName n) (n + 1) (removeDirFS (scratchName n) fs) with
  | ⟨r, fs1, n1, ev1⟩ =>
    ⟨r, removeDirFS (scratchName n) fs1, n1,
      Ev.acquireScratch n :: (ev1 ++ [Ev.releaseScratch n])⟩

/-- `ydl.download([url])` with `outtmpl = f"{dir}/{base}.%(ext)s"`: writes
the extractor's files into the scratch directory, or raises. -/
def ydlRun (env : Env) (url : String) (mode : DlMode) (dir base : String) :
    M Unit := fun n fs =>
  match env.ydl_files url mode with
  | none => ⟨Except.error "yt-dlp DownloadError", fs, n, [Ev.ydlDownload url mode]⟩
  | some files =>
    ⟨Except.ok (),
      (files.map (fun ed => (FPath.mk dir base ed.1, ed.2))) ++ fs, n,
      [Ev.ydlDownload url mode]⟩

/-- `glob.glob(f"{o}.*")` as a computation. -/
def globM (dir base : String) : M (List (String × FileData)) := fun n fs =>
  ⟨Except.ok (globFS fs dir base), fs, n, []⟩

/-- Values in a yt-dlp option mapping (heterogeneous Python values). -/
inductive OptVal where
  | b (v : Bool)
  | s (v : String)
  | hooks
  deriving DecidableEq, Repr

/-- `default_ytdlp_options(overwrites, audio, video)` of main.py:32. -/
def default_ytdlp_options (env : Env) (overwrites audio video : Bool) :
    List (String × OptVal) :=
  let verbosity := env.verbosity
  let options : List (String × OptVal) :=
    [("quiet", OptVal.b (decide (verbosity = 0))),
     ("no_warnings", OptVal.b (decide (verbosity < 2))),
     ("verbose", OptVal.b (decide (verbosity ≥ 2))),
     ("progress_hooks", OptVal.hooks),
     ("debug_printtraffic", OptVal.b (decide (verbosity = 3))),
     ("include_ads", OptVal.b false),
     ("forceurl", OptVal.b (decide (verbosity < 2))),
     ("overwrites", OptVal.b overwrites)]
  let options :=
    if audio then dictSetV options "format" (OptVal.s "bestaudio/best")
    else options
  let options :=
    if video then dictSetV options "format" (OptVal.s "bestvideo+bestaudio/best")
    else options
  options

/-- `_aux_ytdlp_meta_data` of main.py:77: metadata extraction with every
exception swallowed; never raises. -/
def aux_ytdlp_meta_data (env : Env) (url : String) : M (Option MetaMap) :=
  fun n fs => ⟨Except.ok (env.ydl_meta url), fs, n, [Ev.ydlMeta url]⟩

/-- Python truthiness of the `meta` result (`if meta:`). -/
def metaTruthy (m : Option MetaMap) : Bool :=
  match m with
  | none => false
  | some l => !l.isEmpty

/-- `video_url_meta_data` of main.py:106. -/
def video_url_meta_data (env : Env) (url : String) : M MetaMap :=
  bindM (checkM (env.working_url url) "Invalid URL") (fun _ =>
  bindM (aux_ytdlp_meta_data env url) (fun meta =>
  match meta with
  | none => throwM "yt-dlp is not working on that url"
  | some m =>
    -- res = {}; res.update(meta)
    let res := m
    -- res["title"] = meta.get("title")
    let res := dictSetV res "title" (pyGet m "title")
    -- res["description"] = meta.get("description")
    let res := dictSetV res "description" (pyGet m "description")
    -- t = description.split("\n") raises AttributeError on None
    match pyGet m "description" with
    | none => throwM "AttributeError: NoneType has no attribute split"
    | some _ => retM res))

/-- `is_valid_video_url` of main.py:146. -/
def is_valid_video_url (env : Env) (url : String) : M Bool :=
  if emptystring url then retM false
  else if !env.working_url url then retM false
  else
    bindM (aux_ytdlp_meta_data env url) (fun meta =>
    retM (metaTruthy meta))

/-- `download_thumbnail` of main.py:182. -/
def download_thumbnail (env : Env) (url : String) (out : FPath) : M Unit :=
  bindM (withTemp (fun tmp =>
    bindM (ydlRun env url DlMode.thumb tmp out.base) (fun _ =>
    bindM (globM tmp out.base) (fun thumb_file =>
    bindM (checkM (decide (0 < thumb_file.length))
            "Failed to download thumbnail of video") (fun _ =>
    match thumb_file with
    | [] => throwM "IndexError"
    | (ext, data) :: _ =>
      if pyLower ext ≠ pyLower out.ext then
        bindM (emitM Ev.pilConvert) (fun _ =>
        match env.pil_save data out.ext with
        | none => throwM "Failed to save thumbnail"
        | some d => writeM out d)
      else
        copyfileM (FPath.mk tmp out.base ext) out))))) (fun _ =>
  bindM getFsM (fun fs =>
  checkM (fileExistsAt fs out) "Failed to download thumbnail to destination"))

/-- `download_audio` of main.py:246. -/
def download_audio (env : Env) (url : String) (out : FPath) (rate : Nat) :
    M Unit :=
  bindM (checkM (env.working_url url) "Invalid video URL") (fun _ =>
  bindM (withTemp (fun tmp =>
    bindM (ydlRun env url DlMode.audio tmp out.base) (fun _ =>
    bindM (globM tmp out.base) (fun received_file =>
    bindM (checkM (decide (0 < received_file.length))
            "Failed to download audio") (fun _ =>
    match received_file with
    | [] => throwM "IndexError"
    | (ext, data) :: _ =>
      bindM (checkM data.valid_audio "Invalid audio file") (fun _ =>
      if pyLower ext ≠ pyLower out.ext then
        bindM (emitM Ev.soundConvert) (fun _ =>
        writeM out (env.sound_convert data (some rate)))
      else
        copyfileM (FPath.mk tmp out.base ext) out)))))) (fun _ =>
  bindM getFsM (fun fs =>
  checkM (isValidAudioAt fs out) "Failed to save audio to destination")))

/-- `download_video` of main.py:303. -/
def download_video (env : Env) (url : String) (out : FPath) : M Unit :=
  bindM (checkM (env.working_url url) "Invalid video URL") (fun _ =>
  bindM (withTemp (fun tmp =>
    bindM (ydlRun env url DlMode.video tmp out.base) (fun _ =>
    bindM (globM tmp out.base) (fun received_file =>
    bindM (checkM (decide (0 < received_file.length))
            "Failed to download video") (fun _ =>
    match received_file with
    | [] => throwM "IndexError"
    | (ext, data) :: _ =>
      bindM (checkM data.valid_video "Invalid video file downloaded") (fun _ =>
      if pyLower ext ≠ pyLower out.ext then
        bindM (emitM Ev.videoConvert) (fun _ =>
        writeM out (env.video_convert data))
      else
        movefileM (FPath.mk tmp out.base ext) out)))))) (fun _ =>
  bindM getFsM (fun fs =>
  checkM (fileExistsAt fs out) "Failed to save video to destination")))

/-- Read the file an external invocation takes as input (the transcoder
or mux reading its input path); raises when the file is missing. -/
def readFileM (p : FPath) (msg : String) : M FileData := fun n fs =>
  match lookupFS fs p with
  | none => ⟨Except.error msg, fs, n, []⟩
  | some d => ⟨Except.ok d, fs, n, []⟩

/-- `ffmpeg.output(video, audio, out, codec="copy", acodec="aac",
strict="experimental").run(...)`: the multiplex invocation, which either
produces the muxed data or raises. -/
def ffmpegMuxM (env : Env) (v a : FileData) : M FileData := fun n fs =>
  match env.mux_copy_aac v a with
  | none => ⟨Except.error "ffmpeg mux failed", fs, n, [Ev.muxCopyAac]⟩
  | some dm => ⟨Except.ok dm, fs, n, [Ev.muxCopyAac]⟩

/-- `download_bad_video_with_good_sound` of main.py:379. -/
def download_bad_video_with_good_sound (env : Env) (url : String)
    (out : FPath) (provided_audio_file : Option FPath) : M Unit :=
  bindM (withTemp (fun tmp =>
    bindM
      (match provided_audio_file with
       | none =>
         -- mp3 = temp/audio.mp3 ; download_audio(url, mp3)
         bindM (download_audio env url (FPath.mk tmp "audio" "mp3") 44100)
           (fun _ => retM (FPath.mk tmp "audio" "mp3"))
       | some pa =>
         bindM getFsM (fun fs =>
         bindM (checkM (isValidAudioAt fs pa) "Invalid audio file") (fun _ =>
         -- if the audio is not mp3, convert it to mp3
         if pyLower pa.ext ≠ "mp3" then
           bindM (emitM Ev.soundConvert) (fun _ =>
           bindM (readFileM pa "sound_converter: missing input") (fun da =>
           bindM (writeM (FPath.mk tmp "audio" "mp3")
                   (env.sound_convert da none)) (fun _ =>
           retM (FPath.mk tmp "audio" "mp3"))))
         else
           retM pa)))
      (fun mp3 =>
    -- v = temp/video.mp4 ; download_video(url, v)
    bindM (download_video env url (FPath.mk tmp "video" "mp4")) (fun _ =>
    -- vh.video_converter(v, video_no_sound, without_sound=True, height=240)
    bindM (emitM Ev.videoConvertStrip) (fun _ =>
    bindM (readFileM (FPath.mk tmp "video" "mp4")
            "video_converter: missing input") (fun dv =>
    bindM (writeM (FPath.mk tmp "video_no_sound" "mp4")
            (env.video_convert_strip240 dv)) (fun _ =>
    -- ffmpeg.output(i_video, i_audio, out, codec="copy", acodec="aac").run
    bindM (readFileM (FPath.mk tmp "video_no_sound" "mp4")
            "ffmpeg mux: missing input") (fun dstrip =>
    bindM (readFileM mp3 "ffmpeg mux: missing input") (fun da =>
    bindM (ffmpegMuxM env dstrip da) (fun dm =>
    writeM out dm)))))))))) (fun _ =>
  bindM getFsM (fun fs5 =>
  checkM (isValidVideoAt fs5 out)
    "Failed to save video (bad image, good sound)"))

deriving instance DecidableEq for Except

/-! ### Basic lemmas about the computation monad -/

/-- Unfolding equation for `bindM` phrased through projections. -/
theorem bindM_eq {α β : Type} (x : M α) (f : α → M β) (n : Nat) (fs : FS) :
    bindM x f n fs =
      match (x n fs).res with
      | Except.ok a =>
        ⟨(f a (x n fs).fresh (x n fs).fs).res,
         (f a (x n fs).fresh (x n fs).fs).fs,
         (f a (x n fs).fresh (x n fs).fs).fresh,
         (x n fs).ev ++ (f a (x n fs).fresh (x n fs).fs).ev⟩
      | Except.error e =>
        ⟨Except.error e, (x n fs).fs, (x n fs).fresh, (x n fs).ev⟩ := by
  unfold bindM
  rcases hx : x n fs with ⟨r1, fs1, n1, ev1⟩
  cases r1 with
  | ok a =>
    rcases hf : f a n1 fs1 with ⟨r2, fs2, n2, ev2⟩
    simp [hf]
  | error e => simp

/-- Unfolding equation for `withTemp` phrased through projections. -/
theorem withTemp_eq {α : Type} (body : String → M α) (n : Nat) (fs : FS) :
    withTemp body n fs =
      ⟨(body (scratchName n) (n + 1) (removeDirFS (scratchName n) fs)).res,
       removeDirFS (scratchName n)
         (body (scratchName n) (n + 1) (removeDirFS (scratchName n) fs)).fs,
       (body (scratchName n) (n + 1) (removeDirFS (scratchName n) fs)).fresh,
       Ev.acquireScratch n ::
         ((body (scratchName n) (n + 1) (removeDirFS (scratchName n) fs)).ev ++
           [Ev.releaseScratch n])⟩ := by
  unfold withTemp
  rcases hb : body (scratchName n) (n + 1) (removeDirFS (scratchName n) fs)
    with ⟨r, fs1, n1, ev1⟩
  simp

/-- A passed `osh.check` is transparent to the rest of the computation. -/
theorem bindM_check_true {β : Type} {b : Bool} (h : b = true) (msg : String)
    (k : Unit → M β) (n : Nat) (fs : FS) :
    bindM (checkM b msg) k n fs = k () n fs := by
  rw [bindM_eq]
  rcases hk : k () n fs with ⟨r2, fs2, n2, ev2⟩
  simp [checkM, h, hk]

/-- A failed `osh.check` raises with its message. -/
theorem bindM_check_false {β : Type} {b : Bool} (h : b = false) (msg : String)
    (k : Unit → M β) (n : Nat) (fs : FS) :
    bindM (checkM b msg) k n fs = ⟨Except.error msg, fs, n, []⟩ := by
  rw [bindM_eq]
  simp [checkM, h]

/-- Any event of the first component survives sequencing. -/
theorem mem_bindM_left {α β : Type} {x : M α} {f : α → M β} {n : Nat}
    {fs : FS} {e : Ev} (h : e ∈ (x n fs).ev) : e ∈ (bindM x f n fs).ev := by
  rw [bindM_eq]
  rcases hr : (x n fs).res with a | a
  · simpa using h
  · simpa using Or.inl h

/-- Any event of the continuation survives sequencing, when the first
component succeeded. -/
theorem mem_bindM_right {α β : Type} {x : M α} {f : α → M β} {n : Nat}
    {fs : FS} {e : Ev} {a : α} (ha : (x n fs).res = Except.ok a)
    (h : e ∈ (f a (x n fs).fresh (x n fs).fs).ev) :
    e ∈ (bindM x f n fs).ev := by
  rw [bindM_eq, ha]
  simpa using Or.inr h

/-- Any event of the body survives the scratch-directory wrapper. -/
theorem mem_withTemp {α : Type} {body : String → M α} {n : Nat} {fs : FS}
    {e : Ev}
    (h : e ∈ (body (scratchName n) (n + 1) (removeDirFS (scratchName n) fs)).ev) :
    e ∈ (withTemp body n fs).ev := by
  rw [withTemp_eq]
  simp only [List.mem_cons, List.mem_append]
  exact Or.inr (Or.inl h)

/-! ### Lemmas about the filesystem model -/

theorem lookupFS_cons_self (p : FPath) (d : FileData) (fs : FS) :
    lookupFS ((p, d) :: fs) p = some d := by
  simp [lookupFS]

theorem lookupFS_cons_ne {q p : FPath} (h : q ≠ p) (d : FileData) (fs : FS) :
    lookupFS ((q, d) :: fs) p = lookupFS fs p := by
  simp [lookupFS, h]

theorem lookupFS_removeDir_of_ne {dir : String} {p : FPath}
    (h : p.folder ≠ dir) (fs : FS) :
    lookupFS (removeDirFS dir fs) p = lookupFS fs p := by
  induction fs with
  | nil => rfl
  | cons qd rest ih =>
    by_cases hq : qd.1.folder = dir
    · have hne : qd.1 ≠ p := by
        intro hqp; exact h (hqp ▸ hq)
      simp [removeDirFS, hq, lookupFS, hne] at ih ⊢
      simpa [removeDirFS] using ih
    · rcases qd with ⟨q, d⟩
      by_cases hqp : q = p
      · subst hqp; simp [removeDirFS, hq, lookupFS]
      · simp [removeDirFS, hq, lookupFS, hqp] at ih ⊢
        simpa [removeDirFS] using ih

theorem lookupFS_removeDir_self {dir : String} {p : FPath}
    (h : p.folder = dir) (fs : FS) :
    lookupFS (removeDirFS dir fs) p = none := by
  induction fs with
  | nil => rfl
  | cons qd rest ih =>
    by_cases hq : qd.1.folder = dir
    · simpa [removeDirFS, hq] using ih
    · have hne : qd.1 ≠ p := by
        intro hqp; rw [hqp] at hq; exact hq h
      simp [removeDirFS, hq, lookupFS, hne] at ih ⊢
      simpa [removeDirFS] using ih

/-- Globbing sees exactly what the extractor wrote, in order, before any
older files in the same directory. -/
theorem globFS_append_map (dir base : String)
    (files : List (String × FileData)) (fs : FS) :
    globFS ((files.map (fun ed => (FPath.mk dir base ed.1, ed.2))) ++ fs)
        dir base
      = files ++ globFS fs dir base := by
  induction files with
  | nil => rfl
  | cons ed rest ih =>
    rcases ed with ⟨e, d⟩
    simp [globFS, List.filterMap_cons] at ih ⊢
    exact ih

/-- Globbing sees a just-written file at its head. -/
theorem globFS_cons_match (dir base e : String) (d : FileData) (fs : FS) :
    globFS ((FPath.mk dir base e, d) :: fs) dir base
      = (e, d) :: globFS fs dir base := by
  simp [globFS, List.filterMap_cons]

/-- Globbing ignores a file with another basename. -/
theorem globFS_cons_other {dir base : String} {q : FPath} (d : FileData)
    (fs : FS) (h : ¬(q.folder = dir ∧ q.base = base)) :
    globFS ((q, d) :: fs) dir base = globFS fs dir base := by
  simp [globFS, List.filterMap_cons, h]

/-- A freshly cleared scratch directory globs empty. -/
theorem globFS_removeDir (dir base : String) (fs : FS) :
    globFS (removeDirFS dir fs) dir base = [] := by
  induction fs with
  | nil => rfl
  | cons qd rest ih =>
    by_cases hq : qd.1.folder = dir
    · simpa [removeDirFS, hq] using ih
    · simp [removeDirFS, hq, globFS, List.filterMap_cons] at ih ⊢
      simpa [removeDirFS, globFS] using ih

/-! ### Scratch-directory accounting (for the resource-lifetime claim) -/

/-- Number of occurrences of an event in a trace. -/
def countEv (e : Ev) : List Ev → Nat
  | [] => 0
  | x :: rest => (if x = e then 1 else 0) + countEv e rest

theorem countEv_append (e : Ev) (l1 l2 : List Ev) :
    countEv e (l1 ++ l2) = countEv e l1 + countEv e l2 := by
  induction l1 with
  | nil => simp [countEv]
  | cons x rest ih => simp [countEv, ih]; omega

/-- A trace acquires and releases each scratch directory equally often:
every scratch directory acquired during the traced operation is also
released during it. -/
def scratchBalanced (l : List Ev) : Prop :=
  ∀ k, countEv (Ev.acquireScratch k) l = countEv (Ev.releaseScratch k) l

/-- A computation whose every run has a balanced trace. -/
def BalM {α : Type} (x : M α) : Prop :=
  ∀ n fs, scratchBalanced ((x n fs).ev)

theorem scratchBalanced_append {l1 l2 : List Ev} (h1 : scratchBalanced l1)
    (h2 : scratchBalanced l2) : scratchBalanced (l1 ++ l2) := by
  intro k
  rw [countEv_append, countEv_append, h1 k, h2 k]

theorem scratchBalanced_wrap {l : List Ev} (h : scratchBalanced l) (m : Nat) :
    scratchBalanced (Ev.acquireScratch m :: (l ++ [Ev.releaseScratch m])) := by
  intro k
  simp only [countEv, countEv_append]
  by_cases hk : m = k
  · simp [hk, h k]
    omega
  · simp [hk, h k]

theorem balM_ret {α : Type} (a : α) : BalM (retM a) := by
  intro n fs k; rfl

theorem balM_throw {α : Type} (msg : String) : BalM (throwM msg : M α) := by
  intro n fs k; rfl

theorem balM_check (b : Bool) (msg : String) : BalM (checkM b msg) := by
  intro n fs k; rfl

theorem balM_getFs : BalM getFsM := by
  intro n fs k; rfl

theorem balM_write (p : FPath) (d : FileData) : BalM (writeM p d) := by
  intro n fs k; rfl

theorem balM_copy (src dst : FPath) : BalM (copyfileM src dst) := by
  intro n fs k
  unfold copyfileM
  cases lookupFS fs src <;> rfl

theorem balM_move (src dst : FPath) : BalM (movefileM src dst) := by
  intro n fs k
  unfold movefileM
  cases lookupFS fs src <;> rfl

theorem balM_glob (dir base : String) : BalM (globM dir base) := by
  intro n fs k; rfl

theorem balM_emit (e : Ev) (h1 : ∀ k, e ≠ Ev.acquireScratch k)
    (h2 : ∀ k, e ≠ Ev.releaseScratch k) : BalM (emitM e) := by
  intro n fs k
  simp [emitM, countEv, h1 k, h2 k]

theorem balM_ydl (env : Env) (url : String) (mode : DlMode)
    (dir base : String) : BalM (ydlRun env url mode dir base) := by
  intro n fs k
  unfold ydlRun
  cases env.ydl_files url mode <;> simp [countEv]

theorem balM_aux_meta (env : Env) (url : String) :
    BalM (aux_ytdlp_meta_data env url) := by
  intro n fs k
  simp [aux_ytdlp_meta_data, countEv]

theorem balM_bind {α β : Type} {x : M α} {f : α → M β} (hx : BalM x)
    (hf : ∀ a, BalM (f a)) : BalM (bindM x f) := by
  intro n fs
  rw [bindM_eq]
  rcases hr : (x n fs).res with e | a
  · simpa using hx n fs
  · simpa using scratchBalanced_append (hx n fs) (hf a _ _)

theorem balM_withTemp {α : Type} {body : String → M α}
    (hb : ∀ dir, BalM (body dir)) : BalM (withTemp body) := by
  intro n fs
  rw [withTemp_eq]
  exact scratchBalanced_wrap (hb _ _ _) n

theorem balM_download_audio (env : Env) (url : String) (out : FPath)
    (rate : Nat) : BalM (download_audio env url out rate) := by
  unfold download_audio
  apply balM_bind (balM_check _ _)
  intro _
  apply balM_bind
  · apply balM_withTemp
    intro tmp
    apply balM_bind (balM_ydl _ _ _ _ _)
    intro _
    apply balM_bind (balM_glob _ _)
    intro received
    apply balM_bind (balM_check _ _)
    intro _
    split
    · exact balM_throw _
    · apply balM_bind (balM_check _ _)
      intro _
      split
      · exact balM_bind
          (balM_emit _ (fun k => by simp) (fun k => by simp))
          (fun _ => balM_write _ _)
      · exact balM_copy _ _
  · intro _
    apply balM_bind balM_getFs
    intro fs1
    exact balM_check _ _

theorem balM_download_video (env : Env) (url : String) (out : FPath) :
    BalM (download_video env url out) := by
  unfold download_video
  apply balM_bind (balM_check _ _)
  intro _
  apply balM_bind
  · apply balM_withTemp
    intro tmp
    apply balM_bind (balM_ydl _ _ _ _ _)
    intro _
    apply balM_bind (balM_glob _ _)
    intro received
    apply balM_bind (balM_check _ _)
    intro _
    split
    · exact balM_throw _
    · apply balM_bind (balM_check _ _)
      intro _
      split
      · exact balM_bind
          (balM_emit _ (fun k => by simp) (fun k => by simp))
          (fun _ => balM_write _ _)
      · exact balM_move _ _
  · intro _
    apply balM_bind balM_getFs
    intro fs1
    exact balM_check _ _

theorem balM_download_thumbnail (env : Env) (url : String) (out : FPath) :
    BalM (download_thumbnail env url out) := by
  unfold download_thumbnail
  apply balM_bind
  · apply balM_withTemp
    intro tmp
    apply balM_bind (balM_ydl _ _ _ _ _)
    intro _
    apply balM_bind (balM_glob _ _)
    intro thumbs
    apply balM_bind (balM_check _ _)
    intro _
    split
    · exact balM_throw _
    · split
      · apply balM_bind (balM_emit _ (fun k => by simp) (fun k => by simp))
        intro _
        split
        · exact balM_throw _
        · exact balM_write _ _
      · exact balM_copy _ _
  · intro _
    apply balM_bind balM_getFs
    intro fs1
    exact balM_check _ _

theorem balM_read (p : FPath) (msg : String) : BalM (readFileM p msg) := by
  intro n fs k
  unfold readFileM
  cases lookupFS fs p <;> rfl

theorem balM_mux (env : Env) (v a : FileData) : BalM (ffmpegMuxM env v a) := by
  intro n fs k
  unfold ffmpegMuxM
  cases env.mux_copy_aac v a <;> simp [countEv]

theorem balM_download_bad (env : Env) (url : String) (out : FPath)
    (pa : Option FPath) :
    BalM (download_bad_video_with_good_sound env url out pa) := by
  unfold download_bad_video_with_good_sound
  apply balM_bind
  · apply balM_withTemp
    intro tmp
    apply balM_bind
    · split
      · exact balM_bind (balM_download_audio _ _ _ _) (fun _ => balM_ret _)
      · apply balM_bind balM_getFs
        intro fs0
        apply balM_bind (balM_check _ _)
        intro _
        split
        · apply balM_bind (balM_emit _ (fun k => by simp) (fun k => by simp))
          intro _
          apply balM_bind (balM_read _ _)
          intro da
          exact balM_bind (balM_write _ _) (fun _ => balM_ret _)
        · exact balM_ret _
    · intro mp3
      apply balM_bind (balM_download_video _ _ _)
      intro _
      apply balM_bind (balM_emit _ (fun k => by simp) (fun k => by simp))
      intro _
      apply balM_bind (balM_read _ _)
      intro dv
      apply balM_bind (balM_write _ _)
      intro _
      apply balM_bind (balM_read _ _)
      intro dstrip
      apply balM_bind (balM_read _ _)
      intro da
      apply balM_bind (balM_mux _ _ _)
      intro dm
      exact balM_write _ _
  · intro _
    apply balM_bind balM_getFs
    intro fs5
    exact balM_check _ _

/-! ### Success and failure analysis helpers -/

/-- The last line of each downloader is a check of a predicate of the
final filesystem: success of such a computation forces the predicate to
hold of the filesystem it returns. -/
theorem final_check_ok {α : Type} {x : M α} {p : FS → Bool} {msg : String}
    {n : Nat} {fs : FS}
    (h : (bindM x (fun _ => bindM getFsM (fun s => checkM (p s) msg)) n
        fs).res = Except.ok ()) :
    p ((bindM x (fun _ => bindM getFsM (fun s => checkM (p s) msg)) n
        fs).fs) = true := by
  rw [bindM_eq] at h ⊢
  rcases hr : (x n fs).res with e | a
  · rw [hr] at h
    simp at h
  · rw [hr] at h
    simp only [bindM, getFsM, checkM] at h ⊢
    by_cases hp : p ((x n fs).fs) = true
    · exact hp
    · rw [Bool.not_eq_true] at hp
      simp [hp] at h

/-- Success of `download_audio` implies the URL passed the initial
reachability check. -/
theorem download_audio_ok_working {env : Env} {url : String} {out : FPath}
    {rate n : Nat} {fs : FS}
    (h : (download_audio env url out rate n fs).res = Except.ok ()) :
    env.working_url url = true := by
  by_contra hw
  rw [Bool.not_eq_true] at hw
  unfold download_audio at h
  rw [bindM_check_false hw] at h
  simp at h

/-- Success of `download_video` implies the URL passed the initial
reachability check. -/
theorem download_video_ok_working {env : Env} {url : String} {out : FPath}
    {n : Nat} {fs : FS}
    (h : (download_video env url out n fs).res = Except.ok ()) :
    env.working_url url = true := by
  by_contra hw
  rw [Bool.not_eq_true] at hw
  unfold download_video at h
  rw [bindM_check_false hw] at h
  simp at h

/-- Once past its URL check, `download_audio` always invokes the
extraction tool. -/
theorem download_audio_ydl_mem {env : Env} {url : String} {out : FPath}
    {rate n : Nat} {fs : FS} (hw : env.working_url url = true) :
    Ev.ydlDownload url DlMode.audio ∈
      (download_audio env url out rate n fs).ev := by
  unfold download_audio
  rw [bindM_check_true hw]
  apply mem_bindM_left
  apply mem_withTemp
  apply mem_bindM_left
  unfold ydlRun
  cases env.ydl_files url DlMode.audio <;> simp

/-- Once past its URL check, `download_video` always invokes the
extraction tool. -/
theorem download_video_ydl_mem {env : Env} {url : String} {out : FPath}
    {n : Nat} {fs : FS} (hw : env.working_url url = true) :
    Ev.ydlDownload url DlMode.video ∈
      (download_video env url out n fs).ev := by
  unfold download_video
  rw [bindM_check_true hw]
  apply mem_bindM_left
  apply mem_withTemp
  apply mem_bindM_left
  unfold ydlRun
  cases env.ydl_files url DlMode.video <;> simp

/-- `download_thumbnail` always invokes the extraction tool. -/
theorem download_thumbnail_ydl_mem {env : Env} {url : String} {out : FPath}
    {n : Nat} {fs : FS} :
    Ev.ydlDownload url DlMode.thumb ∈
      (download_thumbnail env url out n fs).ev := by
  unfold download_thumbnail
  apply mem_bindM_left
  apply mem_withTemp
  apply mem_bindM_left
  unfold ydlRun
  cases env.ydl_files url DlMode.thumb <;> simp

/-- Raised-error messages are never empty. -/
def ErrNE {α : Type} (x : M α) : Prop :=
  ∀ n fs e, (x n fs).res = Except.error e → e ≠ ""

theorem errNE_ret {α : Type} (a : α) : ErrNE (retM a) := by
  intro n fs e h
  simp [retM] at h

theorem errNE_throw {α : Type} {msg : String} (hm : msg ≠ "") :
    ErrNE (throwM msg : M α) := by
  intro n fs e h
  have hme : msg = e := by simpa [throwM] using h
  exact hme ▸ hm

theorem errNE_check {b : Bool} {msg : String} (hm : msg ≠ "") :
    ErrNE (checkM b msg) := by
  intro n fs e h
  by_cases hb : b = true
  · simp [checkM, hb] at h
  · rw [Bool.not_eq_true] at hb
    have hme : msg = e := by simpa [checkM, hb] using h
    exact hme ▸ hm

theorem errNE_getFs : ErrNE getFsM := by
  intro n fs e h
  simp [getFsM] at h

theorem errNE_glob (dir base : String) : ErrNE (globM dir base) := by
  intro n fs e h
  simp [globM] at h

theorem errNE_write (p : FPath) (d : FileData) : ErrNE (writeM p d) := by
  intro n fs e h
  simp [writeM] at h

theorem errNE_emit (ev : Ev) : ErrNE (emitM ev) := by
  intro n fs e h
  simp [emitM] at h

theorem errNE_copy (src dst : FPath) : ErrNE (copyfileM src dst) := by
  intro n fs e h
  unfold copyfileM at h
  cases hl : lookupFS fs src with
  | none =>
    rw [hl] at h
    have hme : "copyfile: missing source" = e := by simpa using h
    exact hme ▸ (by decide)
  | some d => rw [hl] at h; simp at h

theorem errNE_move (src dst : FPath) : ErrNE (movefileM src dst) := by
  intro n fs e h
  unfold movefileM at h
  cases hl : lookupFS fs src with
  | none =>
    rw [hl] at h
    have hme : "movefile: missing source" = e := by simpa using h
    exact hme ▸ (by decide)
  | some d => rw [hl] at h; simp at h

theorem errNE_ydl (env : Env) (url : String) (mode : DlMode)
    (dir base : String) : ErrNE (ydlRun env url mode dir base) := by
  intro n fs e h
  unfold ydlRun at h
  cases hl : env.ydl_files url mode with
  | none =>
    rw [hl] at h
    have hme : "yt-dlp DownloadError" = e := by simpa using h
    exact hme ▸ (by decide)
  | some files => rw [hl] at h; simp at h

theorem errNE_bind {α β : Type} {x : M α} {f : α → M β} (hx : ErrNE x)
    (hf : ∀ a, ErrNE (f a)) : ErrNE (bindM x f) := by
  intro n fs e h
  rw [bindM_eq] at h
  rcases hr : (x n fs).res with e1 | a
  · rw [hr] at h
    have h1 : e1 = e := by simpa using h
    exact h1 ▸ hx n fs e1 hr
  · rw [hr] at h
    exact hf a _ _ e (by simpa using h)

theorem errNE_withTemp {α : Type} {body : String → M α}
    (hb : ∀ dir, ErrNE (body dir)) : ErrNE (withTemp body) := by
  intro n fs e h
  rw [withTemp_eq] at h
  exact hb _ _ _ e (by simpa using h)

theorem errNE_download_audio (env : Env) (url : String) (out : FPath)
    (rate : Nat) : ErrNE (download_audio env url out rate) := by
  unfold download_audio
  apply errNE_bind (errNE_check (by decide))
  intro _
  apply errNE_bind
  · apply errNE_withTemp
    intro tmp
    apply errNE_bind (errNE_ydl _ _ _ _ _)
    intro _
    apply errNE_bind (errNE_glob _ _)
    intro received
    apply errNE_bind (errNE_check (by decide))
    intro _
    split
    · exact errNE_throw (by decide)
    · apply errNE_bind (errNE_check (by decide))
      intro _
      split
      · exact errNE_bind (errNE_emit _) (fun _ => errNE_write _ _)
      · exact errNE_copy _ _
  · intro _
    apply errNE_bind errNE_getFs
    intro fs1
    exact errNE_check (by decide)

theorem errNE_download_video (env : Env) (url : String) (out : FPath) :
    ErrNE (download_video env url out) := by
  unfold download_video
  apply errNE_bind (errNE_check (by decide))
  intro _
  apply errNE_bind
  · apply errNE_withTemp
    intro tmp
    apply errNE_bind (errNE_ydl _ _ _ _ _)
    intro _
    apply errNE_bind (errNE_glob _ _)
    intro received
    apply errNE_bind (errNE_check (by decide))
    intro _
    split
    · exact errNE_throw (by decide)
    · apply errNE_bind (errNE_check (by decide))
      intro _
      split
      · exact errNE_bind (errNE_emit _) (fun _ => errNE_write _ _)
      · exact errNE_move _ _
  · intro _
    apply errNE_bind errNE_getFs
    intro fs1
    exact errNE_check (by decide)

theorem errNE_read (p : FPath) {msg : String} (hm : msg ≠ "") :
    ErrNE (readFileM p msg) := by
  intro n fs e h
  unfold readFileM at h
  cases hl : lookupFS fs p with
  | none =>
    rw [hl] at h
    have hme : msg = e := by simpa using h
    exact hme ▸ hm
  | some d => rw [hl] at h; simp at h

theorem errNE_mux (env : Env) (v a : FileData) : ErrNE (ffmpegMuxM env v a) := by
  intro n fs e h
  unfold ffmpegMuxM at h
  cases hl : env.mux_copy_aac v a with
  | none =>
    rw [hl] at h
    have hme : "ffmpeg mux failed" = e := by simpa using h
    exact hme ▸ (by decide)
  | some d => rw [hl] at h; simp at h

theorem errNE_aux_meta (env : Env) (url : String) :
    ErrNE (aux_ytdlp_meta_data env url) := by
  intro n fs e h
  simp [aux_ytdlp_meta_data] at h

theorem errNE_download_thumbnail (env : Env) (url : String) (out : FPath) :
    ErrNE (download_thumbnail env url out) := by
  unfold download_thumbnail
  apply errNE_bind
  · apply errNE_withTemp
    intro tmp
    apply errNE_bind (errNE_ydl _ _ _ _ _)
    intro _
    apply errNE_bind (errNE_glob _ _)
    intro thumbs
    apply errNE_bind (errNE_check (by decide))
    intro _
    split
    · exact errNE_throw (by decide)
    · split
      · apply errNE_bind (errNE_emit _)
        intro _
        split
        · exact errNE_throw (by decide)
        · exact errNE_write _ _
      · exact errNE_copy _ _
  · intro _
    apply errNE_bind errNE_getFs
    intro fs1
    exact errNE_check (by decide)

theorem errNE_download_bad (env : Env) (url : String) (out : FPath)
    (pa : Option FPath) :
    ErrNE (download_bad_video_with_good_sound env url out pa) := by
  unfold download_bad_video_with_good_sound
  apply errNE_bind
  · apply errNE_withTemp
    intro tmp
    apply errNE_bind
    · split
      · exact errNE_bind (errNE_download_audio _ _ _ _)
          (fun _ => errNE_ret _)
      · apply errNE_bind errNE_getFs
        intro fs0
        apply errNE_bind (errNE_check (by decide))
        intro _
        split
        · apply errNE_bind (errNE_emit _)
          intro _
          apply errNE_bind (errNE_read _ (by decide))
          intro da
          exact errNE_bind (errNE_write _ _) (fun _ => errNE_ret _)
        · exact errNE_ret _
    · intro mp3
      apply errNE_bind (errNE_download_video _ _ _)
      intro _
      apply errNE_bind (errNE_emit _)
      intro _
      apply errNE_bind (errNE_read _ (by decide))
      intro dv
      apply errNE_bind (errNE_write _ _)
      intro _
      apply errNE_bind (errNE_read _ (by decide))
      intro dstrip
      apply errNE_bind (errNE_read _ (by decide))
      intro da
      apply errNE_bind (errNE_mux _ _ _)
      intro dm
      exact errNE_write _ _
  · intro _
    apply errNE_bind errNE_getFs
    intro fs5
    exact errNE_check (by decide)

theorem errNE_video_url_meta_data (env : Env) (url : String) :
    ErrNE (video_url_meta_data env url) := by
  unfold video_url_meta_data
  apply errNE_bind (errNE_check (by decide))
  intro _
  apply errNE_bind (errNE_aux_meta _ _)
  intro meta
  split
  · exact errNE_throw (by decide)
  · split
    · exact errNE_throw (by decide)
    · exact errNE_ret _

/-- Splitting a successful sequencing into its two successful halves. -/
theorem bindM_ok_split {α β : Type} {x : M α} {f : α → M β} {n : Nat}
    {fs : FS} {b : β} (h : (bindM x f n fs).res = Except.ok b) :
    ∃ a, (x n fs).res = Except.ok a
      ∧ (f a (x n fs).fresh (x n fs).fs).res = Except.ok b
      ∧ (bindM x f n fs).fs = (f a (x n fs).fresh (x n fs).fs).fs
      ∧ (bindM x f n fs).ev
          = (x n fs).ev ++ (f a (x n fs).fresh (x n fs).fs).ev := by
  rcases hr : (x n fs).res with e | a
  · rw [bindM_eq, hr] at h
    simp at h
  · refine ⟨a, rfl, ?_, ?_, ?_⟩
    · rw [bindM_eq, hr] at h
      simpa using h
    · rw [bindM_eq, hr]
    · rw [bindM_eq, hr]

theorem withTemp_res {α : Type} (body : String → M α) (n : Nat) (fs : FS) :
    (withTemp body n fs).res
      = (body (scratchName n) (n + 1) (removeDirFS (scratchName n) fs)).res := by
  rw [withTemp_eq]

theorem withTemp_fs {α : Type} (body : String → M α) (n : Nat) (fs : FS) :
    (withTemp body n fs).fs
      = removeDirFS (scratchName n)
          (body (scratchName n) (n + 1) (removeDirFS (scratchName n) fs)).fs := by
  rw [withTemp_eq]

/-! ### Symbolic runs of `download_audio` -/

/-- `download_audio` when the extractor yields a first file whose extension
differs from the requested one: the audio transcoder runs with the target
sample rate and its output is written to the destination. -/
theorem download_audio_run_convert {env : Env} {url : String} {out : FPath}
    {rate n : Nat} {fs : FS} {e : String} {d : FileData}
    {rest : List (String × FileData)}
    (hw : env.working_url url = true)
    (hA : env.ydl_files url DlMode.audio = some ((e, d) :: rest))
    (hd : d.valid_audio = true)
    (hext : pyLower e ≠ pyLower out.ext) :
    download_audio env url out rate n fs =
      (let fsr : FS := removeDirFS (scratchName n)
        ((out, env.sound_convert d (some rate)) ::
          (((e, d) :: rest).map
            (fun ed => (FPath.mk (scratchName n) out.base ed.1, ed.2)) ++
            removeDirFS (scratchName n) fs))
      ⟨if isValidAudioAt fsr out then Except.ok ()
        else Except.error "Failed to save audio to destination",
       fsr, n + 1,
       [Ev.acquireScratch n, Ev.ydlDownload url DlMode.audio,
        Ev.soundConvert, Ev.releaseScratch n]⟩) := by
  unfold download_audio
  rw [bindM_check_true hw]
  simp only [bindM, withTemp, ydlRun, globM, checkM, emitM, writeM,
    copyfileM, getFsM, retM, throwM, hA,
    globFS_append_map, globFS_removeDir, List.append_nil,
    List.length_cons, hd]
  simp [if_neg hext, bindM, emitM, writeM, copyfileM, lookupFS_cons_self]

/-- `download_audio` when the extractor yields a first file whose extension
already matches: the file is copied verbatim, with no transcoding. -/
theorem download_audio_run_copy {env : Env} {url : String} {out : FPath}
    {rate n : Nat} {fs : FS} {e : String} {d : FileData}
    {rest : List (String × FileData)}
    (hw : env.working_url url = true)
    (hA : env.ydl_files url DlMode.audio = some ((e, d) :: rest))
    (hd : d.valid_audio = true)
    (hext : pyLower e = pyLower out.ext) :
    download_audio env url out rate n fs =
      (let fsr : FS := removeDirFS (scratchName n)
        ((out, d) ::
          (((e, d) :: rest).map
            (fun ed => (FPath.mk (scratchName n) out.base ed.1, ed.2)) ++
            removeDirFS (scratchName n) fs))
      ⟨if isValidAudioAt fsr out then Except.ok ()
        else Except.error "Failed to save audio to destination",
       fsr, n + 1,
       [Ev.acquireScratch n, Ev.ydlDownload url DlMode.audio,
        Ev.releaseScratch n]⟩) := by
  unfold download_audio
  rw [bindM_check_true hw]
  simp only [bindM, withTemp, ydlRun, globM, checkM, emitM, writeM,
    copyfileM, getFsM, retM, throwM, hA,
    globFS_append_map, globFS_removeDir, List.append_nil,
    List.length_cons, hd]
  simp [if_pos hext, bindM, emitM, writeM, copyfileM, lookupFS_cons_self]

/-- `download_audio` when the extractor writes no file: the zero-match
check fails. -/
theorem download_audio_run_zero {env : Env} {url : String} {out : FPath}
    {rate n : Nat} {fs : FS}
    (hw : env.working_url url = true)
    (hA : env.ydl_files url DlMode.audio = some []) :
    (download_audio env url out rate n fs).res
      = Except.error "Failed to download audio" := by
  unfold download_audio
  rw [bindM_check_true hw]
  simp [bindM, withTemp, ydlRun, globM, checkM, emitM, writeM,
    copyfileM, getFsM, retM, throwM, hA, globFS_removeDir]

/-- `download_audio` when the first globbed file fails audio validation. -/
theorem download_audio_run_invalid {env : Env} {url : String} {out : FPath}
    {rate n : Nat} {fs : FS} {e : String} {d : FileData}
    {rest : List (String × FileData)}
    (hw : env.working_url url = true)
    (hA : env.ydl_files url DlMode.audio = some ((e, d) :: rest))
    (hd : d.valid_audio = false) :
    (download_audio env url out rate n fs).res
      = Except.error "Invalid audio file" := by
  unfold download_audio
  rw [bindM_check_true hw]
  simp only [bindM, withTemp, ydlRun, globM, checkM, emitM, writeM,
    copyfileM, getFsM, retM, throwM, hA,
    globFS_append_map, globFS_removeDir, List.append_nil,
    List.length_cons]
  simp [hd, bindM, checkM, throwM]

/-! ### Symbolic runs of `download_video` -/

/-- `download_video` with a first file of a different extension: the video
transcoder runs and its output is written to the destination. -/
theorem download_video_run_convert {env : Env} {url : String} {out : FPath}
    {n : Nat} {fs : FS} {e : String} {d : FileData}
    {rest : List (String × FileData)}
    (hw : env.working_url url = true)
    (hA : env.ydl_files url DlMode.video = some ((e, d) :: rest))
    (hd : d.valid_video = true)
    (hext : pyLower e ≠ pyLower out.ext) :
    download_video env url out n fs =
      (let fsr : FS := removeDirFS (scratchName n)
        ((out, env.video_convert d) ::
          (((e, d) :: rest).map
            (fun ed => (FPath.mk (scratchName n) out.base ed.1, ed.2)) ++
            removeDirFS (scratchName n) fs))
      ⟨if fileExistsAt fsr out then Except.ok ()
        else Except.error "Failed to save video to destination",
       fsr, n + 1,
       [Ev.acquireScratch n, Ev.ydlDownload url DlMode.video,
        Ev.videoConvert, Ev.releaseScratch n]⟩) := by
  unfold download_video
  rw [bindM_check_true hw]
  simp only [bindM, withTemp, ydlRun, globM, checkM, emitM, writeM,
    movefileM, getFsM, retM, throwM, hA,
    globFS_append_map, globFS_removeDir, List.append_nil,
    List.length_cons, hd]
  simp [if_neg hext, bindM, emitM, writeM, movefileM, lookupFS_cons_self]

/-- `download_video` with a first file of the requested extension: the
file is moved verbatim, with no transcoding. -/
theorem download_video_run_move {env : Env} {url : String} {out : FPath}
    {n : Nat} {fs : FS} {e : String} {d : FileData}
    {rest : List (String × FileData)}
    (hw : env.working_url url = true)
    (hA : env.ydl_files url DlMode.video = some ((e, d) :: rest))
    (hd : d.valid_video = true)
    (hext : pyLower e = pyLower out.ext) :
    download_video env url out n fs =
      (let fsr : FS := removeDirFS (scratchName n)
        ((out, d) ::
          removePathFS (FPath.mk (scratchName n) out.base e)
            (((e, d) :: rest).map
              (fun ed => (FPath.mk (scratchName n) out.base ed.1, ed.2)) ++
              removeDirFS (scratchName n) fs))
      ⟨if fileExistsAt fsr out then Except.ok ()
        else Except.error "Failed to save video to destination",
       fsr, n + 1,
       [Ev.acquireScratch n, Ev.ydlDownload url DlMode.video,
        Ev.releaseScratch n]⟩) := by
  unfold download_video
  rw [bindM_check_true hw]
  simp only [bindM, withTemp, ydlRun, globM, checkM, emitM, writeM,
    movefileM, getFsM, retM, throwM, hA,
    globFS_append_map, globFS_removeDir, List.append_nil,
    List.length_cons, hd]
  simp [if_pos hext, bindM, emitM, writeM, movefileM, lookupFS_cons_self]

/-- `download_video` when the extractor writes no file. -/
theorem download_video_run_zero {env : Env} {url : String} {out : FPath}
    {n : Nat} {fs : FS}
    (hw : env.working_url url = true)
    (hA : env.ydl_files url DlMode.video = some []) :
    (download_video env url out n fs).res
      = Except.error "Failed to download video" := by
  unfold download_video
  rw [bindM_check_true hw]
  simp [bindM, withTemp, ydlRun, globM, checkM, emitM, writeM,
    movefileM, getFsM, retM, throwM, hA, globFS_removeDir]

/-- `download_video` when the first globbed file fails video validation. -/
theorem download_video_run_invalid {env : Env} {url : String} {out : FPath}
    {n : Nat} {fs : FS} {e : String} {d : FileData}
    {rest : List (String × FileData)}
    (hw : env.working_url url = true)
    (hA : env.ydl_files url DlMode.video = some ((e, d) :: rest))
    (hd : d.valid_video = false) :
    (download_video env url out n fs).res
      = Except.error "Invalid video file downloaded" := by
  unfold download_video
  rw [bindM_check_true hw]
  simp only [bindM, withTemp, ydlRun, globM, checkM, emitM, writeM,
    movefileM, getFsM, retM, throwM, hA,
    globFS_append_map, globFS_removeDir, List.append_nil,
    List.length_cons]
  simp [hd, bindM, checkM, throwM]

/-! ### Symbolic runs of `download_thumbnail` -/

/-- `download_thumbnail` with a first file of a different extension and a
successful PIL re-encode. -/
theorem download_thumbnail_run_convert {env : Env} {url : String}
    {out : FPath} {n : Nat} {fs : FS} {e : String} {d dp : FileData}
    {rest : List (String × FileData)}
    (hA : env.ydl_files url DlMode.thumb = some ((e, d) :: rest))
    (hp : env.pil_save d out.ext = some dp)
    (hext : pyLower e ≠ pyLower out.ext) :
    download_thumbnail env url out n fs =
      (let fsr : FS := removeDirFS (scratchName n)
        ((out, dp) ::
          (((e, d) :: rest).map
            (fun ed => (FPath.mk (scratchName n) out.base ed.1, ed.2)) ++
            removeDirFS (scratchName n) fs))
      ⟨if fileExistsAt fsr out then Except.ok ()
        else Except.error "Failed to download thumbnail to destination",
       fsr, n + 1,
       [Ev.acquireScratch n, Ev.ydlDownload url DlMode.thumb,
        Ev.pilConvert, Ev.releaseScratch n]⟩) := by
  unfold download_thumbnail
  simp only [bindM, withTemp, ydlRun, globM, checkM, emitM, writeM,
    copyfileM, getFsM, retM, throwM, hA, hp,
    globFS_append_map, globFS_removeDir, List.append_nil,
    List.length_cons]
  simp [if_neg hext, bindM, emitM, writeM, copyfileM, hp,
    lookupFS_cons_self]

/-- `download_thumbnail` with a first file of the requested extension:
copied verbatim, no PIL re-encode. -/
theorem download_thumbnail_run_copy {env : Env} {url : String}
    {out : FPath} {n : Nat} {fs : FS} {e : String} {d : FileData}
    {rest : List (String × FileData)}
    (hA : env.ydl_files url DlMode.thumb = some ((e, d) :: rest))
    (hext : pyLower e = pyLower out.ext) :
    download_thumbnail env url out n fs =
      (let fsr : FS := removeDirFS (scratchName n)
        ((out, d) ::
          (((e, d) :: rest).map
            (fun ed => (FPath.mk (scratchName n) out.base ed.1, ed.2)) ++
            removeDirFS (scratchName n) fs))
      ⟨if fileExistsAt fsr out then Except.ok ()
        else Except.error "Failed to download thumbnail to destination",
       fsr, n + 1,
       [Ev.acquireScratch n, Ev.ydlDownload url DlMode.thumb,
        Ev.releaseScratch n]⟩) := by
  unfold download_thumbnail
  simp only [bindM, withTemp, ydlRun, globM, checkM, emitM, writeM,
    copyfileM, getFsM, retM, throwM, hA,
    globFS_append_map, globFS_removeDir, List.append_nil,
    List.length_cons]
  simp [if_pos hext, bindM, emitM, writeM, copyfileM, lookupFS_cons_self]

/-- `download_thumbnail` when the extractor writes no file. -/
theorem download_thumbnail_run_zero {env : Env} {url : String}
    {out : FPath} {n : Nat} {fs : FS}
    (hA : env.ydl_files url DlMode.thumb = some []) :
    (download_thumbnail env url out n fs).res
      = Except.error "Failed to download thumbnail of video" := by
  unfold download_thumbnail
  simp [bindM, withTemp, ydlRun, globM, checkM, emitM, writeM,
    copyfileM, getFsM, retM, throwM, hA, globFS_removeDir]

/-! ### Dictionary lemmas -/

theorem lookupKey_dictSetV_self {β : Type} (m : List (String × β))
    (k : String) (v : β) : lookupKey (dictSetV m k v) k = some v := by
  induction m with
  | nil => simp [dictSetV, lookupKey]
  | cons kv rest ih =>
    rcases kv with ⟨k1, v1⟩
    by_cases hk : k1 = k
    · subst hk; simp [dictSetV, lookupKey]
    · simp [dictSetV, lookupKey, hk, ih]

theorem lookupKey_dictSetV_other {β : Type} (m : List (String × β))
    {k k' : String} (v : β) (hkk : k ≠ k') :
    lookupKey (dictSetV m k v) k' = lookupKey m k' := by
  induction m with
  | nil => simp [dictSetV, lookupKey, hkk]
  | cons kv rest ih =>
    rcases kv with ⟨k1, v1⟩
    by_cases hk : k1 = k
    · subst hk
      simp [dictSetV, lookupKey, hkk, Ne.symm hkk]
    · by_cases hk' : k1 = k'
      · subst hk'
        simp [dictSetV, lookupKey, hk]
      · simp [dictSetV, lookupKey, hk, hk', ih]

/-! ### Symbolic runs of the metadata operations -/

/-- `is_valid_video_url` in full: always returns a boolean (never raises),
leaves the filesystem alone, and consults the extraction tool exactly when
the URL is non-empty and reachable. -/
theorem is_valid_video_url_run (env : Env) (url : String) (n : Nat)
    (fs : FS) :
    is_valid_video_url env url n fs =
      ⟨Except.ok (!emptystring url &&
          (env.working_url url && metaTruthy (env.ydl_meta url))),
       fs, n,
       if emptystring url = true then []
       else if env.working_url url = false then []
       else [Ev.ydlMeta url]⟩ := by
  unfold is_valid_video_url
  cases he : emptystring url with
  | true => simp [he, retM]
  | false =>
    cases hwu : env.working_url url with
    | true => simp [he, hwu, retM, bindM, aux_ytdlp_meta_data]
    | false => simp [he, hwu, retM, bindM, aux_ytdlp_meta_data]

/-- `video_url_meta_data` when the extractor yields nothing. -/
theorem video_url_meta_data_run_none {env : Env} {url : String} {n : Nat}
    {fs : FS} (hw : env.working_url url = true)
    (hm : env.ydl_meta url = none) :
    (video_url_meta_data env url n fs).res
      = Except.error "yt-dlp is not working on that url" := by
  unfold video_url_meta_data
  rw [bindM_check_true hw]
  simp [bindM, aux_ytdlp_meta_data, throwM, retM, hm]

/-- `video_url_meta_data` when the metadata has a null/absent description:
the `description.split` line raises an uncaught `AttributeError`. -/
theorem video_url_meta_data_run_nodesc {env : Env} {url : String} {n : Nat}
    {fs : FS} {m : MetaMap} (hw : env.working_url url = true)
    (hm : env.ydl_meta url = some m)
    (hdesc : pyGet m "description" = none) :
    (video_url_meta_data env url n fs).res
      = Except.error "AttributeError: NoneType has no attribute split" := by
  unfold video_url_meta_data
  rw [bindM_check_true hw]
  simp [bindM, aux_ytdlp_meta_data, throwM, retM, hm, hdesc]

/-- `video_url_meta_data` on a non-null description: returns the metadata
with the two convenience keys re-assigned. -/
theorem video_url_meta_data_run_ok {env : Env} {url : String} {n : Nat}
    {fs : FS} {m : MetaMap} {ds : String} (hw : env.working_url url = true)
    (hm : env.ydl_meta url = some m)
    (hdesc : pyGet m "description" = some ds) :
    video_url_meta_data env url n fs =
      ⟨Except.ok (dictSetV (dictSetV m "title" (pyGet m "title"))
          "description" (pyGet m "description")),
       fs, n, [Ev.ydlMeta url]⟩ := by
  unfold video_url_meta_data
  rw [bindM_check_true hw]
  simp [bindM, aux_ytdlp_meta_data, throwM, retM, hm, hdesc]

/-- A successful `video_url_meta_data` returns exactly the extractor's
metadata mapping with the two convenience keys re-assigned. -/
theorem video_url_meta_data_ok_shape {env : Env} {url : String} {n : Nat}
    {fs : FS} {r : MetaMap}
    (h : (video_url_meta_data env url n fs).res = Except.ok r) :
    ∃ m, env.ydl_meta url = some m
      ∧ r = dictSetV (dictSetV m "title" (pyGet m "title")) "description"
          (pyGet m "description") := by
  by_cases hw : env.working_url url = true
  · cases hm : env.ydl_meta url with
    | none =>
      rw [video_url_meta_data_run_none hw hm] at h
      simp at h
    | some m =>
      cases hd : pyGet m "description" with
      | none =>
        rw [video_url_meta_data_run_nodesc hw hm hd] at h
        simp at h
      | some ds =>
        rw [video_url_meta_data_run_ok hw hm hd] at h
        refine ⟨m, rfl, ?_⟩
        simpa using h.symm
  · rw [Bool.not_eq_true] at hw
    unfold video_url_meta_data at h
    rw [bindM_check_false hw] at h
    simp at h

/-! ### Success corollaries of the final checks -/

/-- A successful `download_audio` leaves a destination that passes the
audio validator (main.py:300 checks it on the final filesystem). -/
theorem download_audio_ok_valid {env : Env} {url : String} {out : FPath}
    {rate n : Nat} {fs : FS}
    (h : (download_audio env url out rate n fs).res = Except.ok ()) :
    isValidAudioAt (download_audio env url out rate n fs).fs out = true := by
  have hw := download_audio_ok_working h
  unfold download_audio at h ⊢
  rw [bindM_check_true hw] at h ⊢
  exact @final_check_ok _ _ (fun s => isValidAudioAt s out) _ _ _ h

/-- A successful `download_video` leaves a destination that exists
(main.py:371 checks only existence, via `osh.checkfile`). -/
theorem download_video_ok_exists {env : Env} {url : String} {out : FPath}
    {n : Nat} {fs : FS}
    (h : (download_video env url out n fs).res = Except.ok ()) :
    fileExistsAt (download_video env url out n fs).fs out = true := by
  have hw := download_video_ok_working h
  unfold download_video at h ⊢
  rw [bindM_check_true hw] at h ⊢
  exact @final_check_ok _ _ (fun s => fileExistsAt s out) _ _ _ h

/-- A successful `download_thumbnail` leaves a destination that exists
(main.py:242 checks only existence). -/
theorem download_thumbnail_ok_exists {env : Env} {url : String}
    {out : FPath} {n : Nat} {fs : FS}
    (h : (download_thumbnail env url out n fs).res = Except.ok ()) :
    fileExistsAt (download_thumbnail env url out n fs).fs out = true := by
  unfold download_thumbnail at h ⊢
  exact @final_check_ok _ _ (fun s => fileExistsAt s out) _ _ _ h

/-- A successful `download_bad_video_with_good_sound` leaves a destination
that passes the video validator (main.py:456). -/
theorem download_bad_ok_valid {env : Env} {url : String} {out : FPath}
    {pa : Option FPath} {n : Nat} {fs : FS}
    (h : (download_bad_video_with_good_sound env url out pa n fs).res
        = Except.ok ()) :
    isValidVideoAt
      (download_bad_video_with_good_sound env url out pa n fs).fs out
      = true := by
  unfold download_bad_video_with_good_sound at h ⊢
  exact @final_check_ok _ _ (fun s => isValidVideoAt s out) _ _ _ h

/-! ### Primitive rewrite lemmas for sequencing -/

theorem bindM_getFs {β : Type} (k : FS → M β) (n : Nat) (fs : FS) :
    bindM getFsM k n fs = k fs n fs := by
  rcases hk : k fs n fs with ⟨r, fs1, n1, ev1⟩
  simp [bindM, getFsM, hk]

theorem bindM_emit {β : Type} (e : Ev) (k : Unit → M β) (n : Nat) (fs : FS) :
    bindM (emitM e) k n fs =
      ⟨(k () n fs).res, (k () n fs).fs, (k () n fs).fresh,
       e :: (k () n fs).ev⟩ := by
  rcases hk : k () n fs with ⟨r, fs1, n1, ev1⟩
  simp [bindM, emitM, hk]

theorem bindM_write {β : Type} (p : FPath) (d : FileData) (k : Unit → M β)
    (n : Nat) (fs : FS) :
    bindM (writeM p d) k n fs = k () n ((p, d) :: fs) := by
  rcases hk : k () n ((p, d) :: fs) with ⟨r, fs1, n1, ev1⟩
  simp [bindM, writeM, hk]

theorem bindM_ret {α β : Type} (a : α) (k : α → M β) (n : Nat) (fs : FS) :
    bindM (retM a) k n fs = k a n fs := by
  rcases hk : k a n fs with ⟨r, fs1, n1, ev1⟩
  simp [bindM, retM, hk]

theorem withTemp_ev {α : Type} (body : String → M α) (n : Nat) (fs : FS) :
    (withTemp body n fs).ev
      = Ev.acquireScratch n ::
          ((body (scratchName n) (n + 1) (removeDirFS (scratchName n) fs)).ev
            ++ [Ev.releaseScratch n]) := by
  rw [withTemp_eq]

theorem readFileM_fs (p : FPath) (msg : String) (n : Nat) (fs : FS) :
    (readFileM p msg n fs).fs = fs := by
  unfold readFileM
  cases lookupFS fs p <;> rfl

theorem readFileM_fresh (p : FPath) (msg : String) (n : Nat) (fs : FS) :
    (readFileM p msg n fs).fresh = n := by
  unfold readFileM
  cases lookupFS fs p <;> rfl

theorem readFileM_ev (p : FPath) (msg : String) (n : Nat) (fs : FS) :
    (readFileM p msg n fs).ev = [] := by
  unfold readFileM
  cases lookupFS fs p <;> rfl

theorem readFileM_ok {p : FPath} {msg : String} {n : Nat} {fs : FS}
    {d : FileData} (h : (readFileM p msg n fs).res = Except.ok d) :
    lookupFS fs p = some d := by
  unfold readFileM at h
  cases hl : lookupFS fs p with
  | none => rw [hl] at h; simp at h
  | some d0 => rw [hl] at h; simpa using h

theorem ffmpegMuxM_fs (env : Env) (v a : FileData) (n : Nat) (fs : FS) :
    (ffmpegMuxM env v a n fs).fs = fs := by
  unfold ffmpegMuxM
  cases env.mux_copy_aac v a <;> rfl

theorem ffmpegMuxM_fresh (env : Env) (v a : FileData) (n : Nat) (fs : FS) :
    (ffmpegMuxM env v a n fs).fresh = n := by
  unfold ffmpegMuxM
  cases env.mux_copy_aac v a <;> rfl

theorem ffmpegMuxM_ev (env : Env) (v a : FileData) (n : Nat) (fs : FS) :
    (ffmpegMuxM env v a n fs).ev = [Ev.muxCopyAac] := by
  unfold ffmpegMuxM
  cases env.mux_copy_aac v a <;> rfl

theorem ffmpegMuxM_ok {env : Env} {v a : FileData} {n : Nat} {fs : FS}
    {dm : FileData} (h : (ffmpegMuxM env v a n fs).res = Except.ok dm) :
    env.mux_copy_aac v a = some dm := by
  unfold ffmpegMuxM at h
  cases hl : env.mux_copy_aac v a with
  | none => rw [hl] at h; simp at h
  | some d0 => rw [hl] at h; simpa using h

theorem writeM_fs (p : FPath) (d : FileData) (n : Nat) (fs : FS) :
    (writeM p d n fs).fs = (p, d) :: fs := rfl

theorem writeM_ev (p : FPath) (d : FileData) (n : Nat) (fs : FS) :
    (writeM p d n fs).ev = [] := rfl

/-- Anatomy of a successful composite run: the destination holds the
output of the stream-copy/AAC mux of the 240p audio-stripped conversion
of some video data against some audio data, and both the strip conversion
and the mux were invoked. -/
theorem download_bad_ok_anatomy {env : Env} {url : String} {out : FPath}
    {pa : Option FPath} {n : Nat} {fs : FS}
    (h : (download_bad_video_with_good_sound env url out pa n fs).res
        = Except.ok ()) :
    ∃ dv da dm,
      env.mux_copy_aac (env.video_convert_strip240 dv) da = some dm
      ∧ lookupFS
          (download_bad_video_with_good_sound env url out pa n fs).fs out
          = some dm
      ∧ Ev.videoConvertStrip
          ∈ (download_bad_video_with_good_sound env url out pa n fs).ev
      ∧ Ev.muxCopyAac
          ∈ (download_bad_video_with_good_sound env url out pa n fs).ev := by
  have hvalid := download_bad_ok_valid h
  unfold download_bad_video_with_good_sound at h hvalid ⊢
  obtain ⟨u1, hW, hF, hfs, hev⟩ := bindM_ok_split h
  simp only [bindM_getFs, checkM, List.append_nil] at hfs hev
  rw [withTemp_res] at hW
  rw [withTemp_fs] at hfs
  rw [withTemp_ev] at hev
  obtain ⟨mp3, hAS, hK, hfsB, hevB⟩ := bindM_ok_split hW
  obtain ⟨u2, hDV, hK2, hfs2, hev2⟩ := bindM_ok_split hK
  simp only [bindM_emit] at hK2 hfs2 hev2
  obtain ⟨dv, hRv, hK3, hfs3, hev3⟩ := bindM_ok_split hK2
  simp only [readFileM_fs, readFileM_fresh, readFileM_ev,
    bindM_write] at hK3 hfs3 hev3
  obtain ⟨dstrip, hRs, hK4, hfs4, hev4⟩ := bindM_ok_split hK3
  simp only [readFileM_fs, readFileM_fresh, readFileM_ev] at hK4 hfs4 hev4
  obtain ⟨da, hRa, hK5, hfs5, hev5⟩ := bindM_ok_split hK4
  simp only [readFileM_fs, readFileM_fresh, readFileM_ev] at hK5 hfs5 hev5
  obtain ⟨dm, hMx, hK6, hfs6, hev6⟩ := bindM_ok_split hK5
  simp only [ffmpegMuxM_fs, ffmpegMuxM_fresh, ffmpegMuxM_ev,
    writeM_fs, writeM_ev] at hK6 hfs6 hev6
  have hds : dstrip = env.video_convert_strip240 dv := by
    have := readFileM_ok hRs
    rw [lookupFS_cons_self] at this
    exact (Option.some.injEq _ _ ▸ this).symm
  have hmux : env.mux_copy_aac (env.video_convert_strip240 dv) da = some dm :=
    hds ▸ ffmpegMuxM_ok hMx
  refine ⟨dv, da, dm, hmux, ?_, ?_, ?_⟩
  · rw [hfs, hfsB, hfs2, hfs3, hfs4, hfs5, hfs6]
    by_cases hfo : out.folder = scratchName n
    · rw [hfs, hfsB, hfs2, hfs3, hfs4, hfs5, hfs6] at hvalid
      simp [isValidVideoAt, lookupFS_removeDir_self hfo] at hvalid
    · rw [lookupFS_removeDir_of_ne hfo, lookupFS_cons_self]
  · rw [hev, hevB, hev2]
    simp only [hev3, hev4, hev5, hev6, List.nil_append, List.append_nil,
      List.mem_cons, List.mem_append]
    simp
  · rw [hev, hevB, hev2]
    simp only [hev3, hev4, hev5, hev6, List.nil_append, List.append_nil,
      List.mem_cons, List.mem_append]
    simp

/-- In a successful composite run, the audio side behaves as specified:
with no supplied audio the extraction tool is invoked in audio mode, and
with a supplied non-mp3 audio file the audio transcoder is invoked. -/
theorem download_bad_audio_events {env : Env} {url : String} {out : FPath}
    {pa : Option FPath} {n : Nat} {fs : FS}
    (h : (download_bad_video_with_good_sound env url out pa n fs).res
        = Except.ok ()) :
    (pa = none → Ev.ydlDownload url DlMode.audio
        ∈ (download_bad_video_with_good_sound env url out pa n fs).ev)
    ∧ (∀ p, pa = some p → pyLower p.ext ≠ "mp3" → Ev.soundConvert
        ∈ (download_bad_video_with_good_sound env url out pa n fs).ev) := by
  unfold download_bad_video_with_good_sound at h ⊢
  obtain ⟨u1, hW, hF, hfs, hev⟩ := bindM_ok_split h
  simp only [bindM_getFs, checkM, List.append_nil] at hev
  rw [withTemp_res] at hW
  rw [withTemp_ev] at hev
  obtain ⟨mp3, hAS, hK, hfsB, hevB⟩ := bindM_ok_split hW
  rw [hev, hevB]
  constructor
  · rintro rfl
    obtain ⟨u0, hDA, hR, hfsA, hevA⟩ := bindM_ok_split hAS
    have hw := download_audio_ok_working hDA
    have hmem := @download_audio_ydl_mem env url
      (FPath.mk (scratchName n) "audio" "mp3") 44100 (n + 1)
      (removeDirFS (scratchName n) fs) hw
    simp only [List.mem_cons, List.mem_append]
    refine Or.inr (Or.inl (Or.inl ?_))
    rw [hevA]
    exact List.mem_append_left _ hmem
  · intro p hpa hne
    subst hpa
    simp only [bindM_getFs, if_pos hne] at hAS ⊢
    obtain ⟨u0, hCk, hIte, hfsA, hevA⟩ := bindM_ok_split hAS
    simp only [bindM_emit, checkM, List.nil_append] at hevA
    simp only [List.mem_cons, List.mem_append]
    refine Or.inr (Or.inl (Or.inl ?_))
    rw [hevA]
    simp

/-! ### Validator facts used when reading back a written destination -/

theorem isSome_of_validAudio {fs : FS} {p : FPath}
    (h : isValidAudioAt fs p = true) : (lookupFS fs p).isSome = true := by
  unfold isValidAudioAt at h
  cases hl : lookupFS fs p with
  | none => rw [hl] at h; simp at h
  | some d => simp

theorem isSome_of_validVideo {fs : FS} {p : FPath}
    (h : isValidVideoAt fs p = true) : (lookupFS fs p).isSome = true := by
  unfold isValidVideoAt at h
  cases hl : lookupFS fs p with
  | none => rw [hl] at h; simp at h
  | some d => simp

/-- A file just written at the destination survives the scratch cleanup
whenever the destination is observable at all afterwards. -/
theorem lookup_write_removeDir {sn : String} {out : FPath} {X : FileData}
    {tail : FS}
    (hsome : (lookupFS (removeDirFS sn ((out, X) :: tail)) out).isSome
        = true) :
    lookupFS (removeDirFS sn ((out, X) :: tail)) out = some X := by
  by_cases hfo : out.folder = sn
  · rw [lookupFS_removeDir_self hfo] at hsome
    simp at hsome
  · rw [lookupFS_removeDir_of_ne hfo]
    exact lookupFS_cons_self out X tail

/-! ### Concrete file data and environments for witnesses and
counterexamples -/

def audioD : FileData := ⟨true, false, 0, false⟩
def videoD : FileData := ⟨false, true, 720, true⟩
def imgD : FileData := ⟨false, false, 0, false⟩
def stripD : FileData := ⟨false, true, 240, false⟩
def invalidD : FileData := ⟨false, false, 720, true⟩

/-- An environment in which every collaborator behaves, with the mux
honouring its stream-copy/AAC contract. -/
def envHappy : Env where
  verbosity := 0
  working_url := fun _ => true
  ydl_meta := fun _ => some [("title", some "t"), ("description", some "d")]
  ydl_files := fun _ m =>
    match m with
    | DlMode.thumb => some [("jpg", imgD)]
    | DlMode.audio => some [("mp3", audioD)]
    | DlMode.video => some [("mp4", videoD)]
  sound_convert := fun _ _ => audioD
  video_convert := fun _ => videoD
  video_convert_strip240 := fun _ => stripD
  pil_save := fun _ _ => some imgD
  mux_copy_aac := fun v _ => some ⟨false, true, v.height, true⟩

/-- Environment whose video transcoder produces an existing but invalid
output file. -/
def envC1 : Env where
  verbosity := 0
  working_url := fun _ => true
  ydl_meta := fun _ => none
  ydl_files := fun _ m =>
    match m with
    | DlMode.video => some [("webm", videoD)]
    | _ => none
  sound_convert := fun d _ => d
  video_convert := fun _ => invalidD
  video_convert_strip240 := fun _ => stripD
  pil_save := fun d _ => some d
  mux_copy_aac := fun v _ => some ⟨false, true, v.height, true⟩

/-- Environment whose extractor writes two files matching the template. -/
def envC3 : Env where
  verbosity := 0
  working_url := fun _ => true
  ydl_meta := fun _ => none
  ydl_files := fun _ m =>
    match m with
    | DlMode.audio => some [("m4a", audioD), ("webm", audioD)]
    | _ => none
  sound_convert := fun d _ => d
  video_convert := fun d => d
  video_convert_strip240 := fun _ => stripD
  pil_save := fun d _ => some d
  mux_copy_aac := fun v _ => some ⟨false, true, v.height, true⟩

/-- Environment whose extractor writes no file at all. -/
def envZero : Env where
  verbosity := 0
  working_url := fun _ => true
  ydl_meta := fun _ => none
  ydl_files := fun _ _ => some []
  sound_convert := fun d _ => d
  video_convert := fun d => d
  video_convert_strip240 := fun _ => stripD
  pil_save := fun d _ => some d
  mux_copy_aac := fun v _ => some ⟨false, true, v.height, true⟩

/-- Environment whose metadata extractor omits the `title` key. -/
def envC5 : Env where
  verbosity := 0
  working_url := fun _ => true
  ydl_meta := fun _ => some [("description", some "d")]
  ydl_files := fun _ _ => none
  sound_convert := fun d _ => d
  video_convert := fun d => d
  video_convert_strip240 := fun _ => stripD
  pil_save := fun d _ => some d
  mux_copy_aac := fun v _ => some ⟨false, true, v.height, true⟩

/-- Environment whose metadata extractor yields nothing. -/
def envC5none : Env where
  verbosity := 0
  working_url := fun _ => true
  ydl_meta := fun _ => none
  ydl_files := fun _ _ => none
  sound_convert := fun d _ => d
  video_convert := fun d => d
  video_convert_strip240 := fun _ => stripD
  pil_save := fun d _ => some d
  mux_copy_aac := fun v _ => some ⟨false, true, v.height, true⟩

/-- Environment in which every URL fails the reachability check. -/
def envC8fail : Env where
  verbosity := 0
  working_url := fun _ => false
  ydl_meta := fun _ => none
  ydl_files := fun _ _ => none
  sound_convert := fun d _ => d
  video_convert := fun d => d
  video_convert_strip240 := fun _ => stripD
  pil_save := fun d _ => some d
  mux_copy_aac := fun v _ => some ⟨false, true, v.height, true⟩

def outWA : FPath := ⟨"o", "a", "mp3"⟩
def outWV : FPath := ⟨"o", "v", "mp4"⟩
def outWT : FPath := ⟨"o", "t", "jpg"⟩
def outWB : FPath := ⟨"o", "b", "mp4"⟩
def outVC1 : FPath := ⟨"outdir", "movie", "mp4"⟩
def outA2 : FPath := ⟨"outdir", "song", "mp3"⟩
def outC3 : FPath := ⟨"outdir", "song", "m4a"⟩
def outC8 : FPath := ⟨"outdir", "clip", "mp4"⟩

/-! ### Claims -/

/-- C10: `default_ytdlp_options` with `video=True` maps the `format` key to
"bestvideo+bestaudio/best" regardless of the `audio` flag (the video
branch runs second and overwrites); with `audio=True, video=False` it maps
`format` to "bestaudio/best"; with both flags false the mapping has no
`format` key. -/
theorem c10_default_options_format (env : Env) (ow audio : Bool) :
    lookupKey (default_ytdlp_options env ow audio true) "format"
      = some (OptVal.s "bestvideo+bestaudio/best")
    ∧ lookupKey (default_ytdlp_options env ow true false) "format"
      = some (OptVal.s "bestaudio/best")
    ∧ lookupKey (default_ytdlp_options env ow false false) "format"
      = none := by
  refine ⟨?_, ?_, ?_⟩
  · cases audio <;> rfl
  · rfl
  · rfl

/-- C4: `is_valid_video_url` always returns a boolean and never raises;
the result is the conjunction of the three checks in order (non-empty,
reachable, extraction-tool metadata truthy), so it is `false` for the
empty string and for an unreachable host; and the event trace shows the
extraction tool is consulted only when the first two checks pass, i.e.
the function returns false at the first failed check. -/
theorem c4_is_valid_video_url_total (env : Env) (url : String) (n : Nat)
    (fs : FS) :
    (is_valid_video_url env url n fs).res
      = Except.ok (!emptystring url &&
          (env.working_url url && metaTruthy (env.ydl_meta url)))
    ∧ (is_valid_video_url env url n fs).ev
      = (if emptystring url = true then []
         else if env.working_url url = false then []
         else [Ev.ydlMeta url]) := by
  constructor <;> rw [is_valid_video_url_run]

/-- C9: in every run of every download operation, each scratch directory
acquired is also released within that same run's event trace, whether the
run succeeds or raises: acquisitions and releases balance exactly, so no
scratch directory outlives its download-and-reconcile call. -/
theorem c9_scratch_lifetime (env : Env) (url : String) (out : FPath)
    (rate : Nat) (pa : Option FPath) (n : Nat) (fs : FS) :
    scratchBalanced (download_thumbnail env url out n fs).ev
    ∧ scratchBalanced (download_audio env url out rate n fs).ev
    ∧ scratchBalanced (download_video env url out n fs).ev
    ∧ scratchBalanced
        (download_bad_video_with_good_sound env url out pa n fs).ev :=
  ⟨balM_download_thumbnail env url out n fs,
   balM_download_audio env url out rate n fs,
   balM_download_video env url out n fs,
   balM_download_bad env url out pa n fs⟩

/-- C1 counterexample: when the video transcoder produces an existing but
invalid destination file, `download_video` still returns successfully
(its final check is only `osh.checkfile`, an existence test), so the
destination does not pass the video validator. -/
theorem c1_counterexample :
    (download_video envC1 "u" outVC1 0 []).res = Except.ok ()
    ∧ isValidVideoAt (download_video envC1 "u" outVC1 0 []).fs outVC1
        = false := by
  constructor
  · decide
  · decide

/-- C1 (amended): on success, `download_audio` leaves a destination
passing the audio validator and `download_bad_video_with_good_sound` one
passing the video validator; `download_video` and `download_thumbnail`
guarantee only that the destination file exists (the scratch file is
validated before reconciliation, but the transcoded destination is not
re-validated). -/
theorem c1_amended_postconditions (env : Env) (url : String)
    (outa outv outt outb : FPath) (rate : Nat) (pa : Option FPath)
    (na nv nt nb : Nat) (fsa fsv fst fsb : FS)
    (hA : (download_audio env url outa rate na fsa).res = Except.ok ())
    (hV : (download_video env url outv nv fsv).res = Except.ok ())
    (hT : (download_thumbnail env url outt nt fst).res = Except.ok ())
    (hB : (download_bad_video_with_good_sound env url outb pa nb fsb).res
        = Except.ok ()) :
    isValidAudioAt (download_audio env url outa rate na fsa).fs outa = true
    ∧ fileExistsAt (download_video env url outv nv fsv).fs outv = true
    ∧ fileExistsAt (download_thumbnail env url outt nt fst).fs outt = true
    ∧ isValidVideoAt
        (download_bad_video_with_good_sound env url outb pa nb fsb).fs outb
        = true :=
  ⟨download_audio_ok_valid hA, download_video_ok_exists hV,
   download_thumbnail_ok_exists hT, download_bad_ok_valid hB⟩

/-- Witness for C1 (amended) at a concrete happy-path environment. -/
theorem c1_witness :
    isValidAudioAt (download_audio envHappy "u" outWA 44100 0 []).fs outWA
        = true
    ∧ fileExistsAt (download_video envHappy "u" outWV 0 []).fs outWV = true
    ∧ fileExistsAt (download_thumbnail envHappy "u" outWT 0 []).fs outWT
        = true
    ∧ isValidVideoAt
        (download_bad_video_with_good_sound envHappy "u" outWB none 0
          []).fs outWB = true :=
  c1_amended_postconditions envHappy "u" outWA outWV outWT outWB 44100 none
    0 0 0 0 [] [] [] [] (by decide) (by decide) (by decide) (by decide)

/-- C2 counterexample: with a valid audio file already present at the
destination, `download_audio` still invokes the extraction tool — there
is no idempotence short-circuit in the code. -/
theorem c2_counterexample :
    isValidAudioAt [(outA2, audioD)] outA2 = true
    ∧ Ev.ydlDownload "u" DlMode.audio
        ∈ (download_audio envHappy "u" outA2 44100 0
            [(outA2, audioD)]).ev := by
  constructor
  · decide
  · decide

/-- C2 (amended): no downloader checks the destination before working:
the extraction tool is invoked on every call — unconditionally for
`download_thumbnail`, and whenever the URL passes the reachability check
for `download_audio` and `download_video` — regardless of what the
destination path already holds. -/
theorem c2_amended_always_downloads (env : Env) (url : String)
    (out : FPath) (rate n : Nat) (fs : FS)
    (hw : env.working_url url = true) :
    Ev.ydlDownload url DlMode.thumb
        ∈ (download_thumbnail env url out n fs).ev
    ∧ Ev.ydlDownload url DlMode.audio
        ∈ (download_audio env url out rate n fs).ev
    ∧ Ev.ydlDownload url DlMode.video
        ∈ (download_video env url out n fs).ev :=
  ⟨download_thumbnail_ydl_mem, download_audio_ydl_mem hw,
   download_video_ydl_mem hw⟩

/-- Witness for C2 (amended): a call over a destination that already
holds a valid file still reaches the extractor in all three modes. -/
theorem c2_witness :
    Ev.ydlDownload "u" DlMode.thumb
        ∈ (download_thumbnail envHappy "u" outA2 0 [(outA2, audioD)]).ev
    ∧ Ev.ydlDownload "u" DlMode.audio
        ∈ (download_audio envHappy "u" outA2 44100 0 [(outA2, audioD)]).ev
    ∧ Ev.ydlDownload "u" DlMode.video
        ∈ (download_video envHappy "u" outA2 0 [(outA2, audioD)]).ev :=
  c2_amended_always_downloads envHappy "u" outA2 44100 0 [(outA2, audioD)]
    (by decide)

/-- C3 counterexample: when the glob yields two matches, `download_audio`
does not fail on the unexpected count; it proceeds with the first match
and returns successfully. -/
theorem c3_counterexample :
    (match envC3.ydl_files "u" DlMode.audio with
     | some files => files.length
     | none => 0) = 2
    ∧ (download_audio envC3 "u" outC3 44100 0 []).res = Except.ok () := by
  constructor
  · decide
  · decide

/-- C3 (amended): after the extractor runs, each downloader checks only
that the glob count is nonzero (`len > 0`): zero matches fail with the
download-failure error, but any larger count proceeds with the first
match — for `download_audio` and `download_video` the subsequent validity
check is applied to that first file. -/
theorem c3_amended_zero_check_only (env : Env) (url : String) (out : FPath)
    (rate n : Nat) (fs : FS) (e : String) (d : FileData)
    (rest : List (String × FileData))
    (hw : env.working_url url = true) :
    (env.ydl_files url DlMode.audio = some [] →
      (download_audio env url out rate n fs).res
        = Except.error "Failed to download audio")
    ∧ (env.ydl_files url DlMode.video = some [] →
      (download_video env url out n fs).res
        = Except.error "Failed to download video")
    ∧ (env.ydl_files url DlMode.thumb = some [] →
      (download_thumbnail env url out n fs).res
        = Except.error "Failed to download thumbnail of video")
    ∧ (env.ydl_files url DlMode.audio = some ((e, d) :: rest) →
        d.valid_audio = false →
      (download_audio env url out rate n fs).res
        = Except.error "Invalid audio file")
    ∧ (env.ydl_files url DlMode.video = some ((e, d) :: rest) →
        d.valid_video = false →
      (download_video env url out n fs).res
        = Except.error "Invalid video file downloaded") :=
  ⟨fun h0 => download_audio_run_zero hw h0,
   fun h0 => download_video_run_zero hw h0,
   fun h0 => download_thumbnail_run_zero h0,
   fun hc hd => download_audio_run_invalid hw hc hd,
   fun hc hd => download_video_run_invalid hw hc hd⟩

/-- Witness for C3 (amended): a zero-match extraction fails with the
download-failure error. -/
theorem c3_witness :
    (download_audio envZero "u" outC3 44100 0 []).res
      = Except.error "Failed to download audio" :=
  (c3_amended_zero_check_only envZero "u" outC3 44100 0 [] "" audioD []
    (by decide)).1 rfl

/-- C5 counterexample: when the extractor metadata lacks the `title` key,
`video_url_meta_data` returns successfully with `title` bound to null —
the promised non-null `title` guarantee does not hold. -/
theorem c5_counterexample :
    (video_url_meta_data envC5 "u" 0 []).res
      = Except.ok [("description", some "d"), ("title", none)]
    ∧ pyGet [("description", some "d"), ("title", none)] "title" = none
    ∧ containsKey [("description", some "d"), ("title", none)] "title"
        = true := by
  refine ⟨?_, ?_, ?_⟩ <;> decide

/-- C5 (amended): on success the returned mapping always has `title` and
`description` keys, `description` is non-null (a null description makes
the function raise an uncaught AttributeError instead of returning),
`title` is passed through and may be null, and all other extractor keys
pass through unmodified; when the extractor returns nothing the function
fails with the explicit validation error. -/
theorem c5_amended_meta_data (env : Env) (url : String) (n : Nat) (fs : FS)
    (m : MetaMap) (ds : String) (hw : env.working_url url = true) :
    (env.ydl_meta url = none →
      (video_url_meta_data env url n fs).res
        = Except.error "yt-dlp is not working on that url")
    ∧ (env.ydl_meta url = some m → pyGet m "description" = none →
      (video_url_meta_data env url n fs).res
        = Except.error "AttributeError: NoneType has no attribute split")
    ∧ (env.ydl_meta url = some m → pyGet m "description" = some ds →
        ∃ r, (video_url_meta_data env url n fs).res = Except.ok r
          ∧ containsKey r "title" = true
          ∧ containsKey r "description" = true
          ∧ pyGet r "title" = pyGet m "title"
          ∧ pyGet r "description" = some ds
          ∧ ∀ k, k ≠ "title" → k ≠ "description" → pyGet r k = pyGet m k) := by
  refine ⟨fun hm => video_url_meta_data_run_none hw hm,
          fun hm hd => video_url_meta_data_run_nodesc hw hm hd,
          fun hm hd => ?_⟩
  refine ⟨dictSetV (dictSetV m "title" (pyGet m "title")) "description"
    (pyGet m "description"), ?_, ?_, ?_, ?_, ?_, ?_⟩
  · rw [video_url_meta_data_run_ok hw hm hd]
  · unfold containsKey
    rw [lookupKey_dictSetV_other _ _ (by decide),
      lookupKey_dictSetV_self]
    rfl
  · unfold containsKey
    rw [lookupKey_dictSetV_self]
    rfl
  · unfold pyGet
    rw [lookupKey_dictSetV_other _ _ (by decide),
      lookupKey_dictSetV_self]
  · unfold pyGet
    rw [lookupKey_dictSetV_self]
    exact hd
  · intro k hkt hkd
    unfold pyGet
    rw [lookupKey_dictSetV_other _ _ (fun hk => hkd hk.symm),
      lookupKey_dictSetV_other _ _ (fun hk => hkt hk.symm)]

/-- Witness for C5 (amended): with an extractor yielding nothing, the
function fails with the explicit validation error. -/
theorem c5_witness :
    (video_url_meta_data envC5none "u" 0 []).res
      = Except.error "yt-dlp is not working on that url" :=
  (c5_amended_meta_data envC5none "u" 0 [] [] "" (by decide)).1 rfl

/-- C8 counterexample: a successful `download_video` returns None (unit),
not the resolved destination path — the downloaders' return value carries
no path (and their destination argument is required, not optional, in the
source: `download_video(url, output_path)` with no default). -/
theorem c8_counterexample :
    (download_video envHappy "u" outC8 0 []).res = Except.ok () := by
  decide

/-- C8 (amended): the operations take a URL and a required destination
path; the downloaders return None (unit), `is_valid_video_url` returns a
boolean and `video_url_meta_data` returns the metadata mapping (the
extractor's mapping with the `title`/`description` keys re-assigned); and
on failure every operation raises an error with a non-empty
human-readable message, never a returned error code. -/
theorem c8_amended_interface (env : Env) (url : String) (out : FPath)
    (rate n : Nat) (fs : FS) (pa : Option FPath) :
    (∀ e, (download_audio env url out rate n fs).res = Except.error e →
        e ≠ "")
    ∧ (∀ e, (download_video env url out n fs).res = Except.error e →
        e ≠ "")
    ∧ (∀ e, (download_thumbnail env url out n fs).res = Except.error e →
        e ≠ "")
    ∧ (∀ e, (download_bad_video_with_good_sound env url out pa n
        fs).res = Except.error e → e ≠ "")
    ∧ (∀ e, (video_url_meta_data env url n fs).res = Except.error e →
        e ≠ "")
    ∧ (is_valid_video_url env url n fs).res
        = Except.ok (!emptystring url &&
            (env.working_url url && metaTruthy (env.ydl_meta url)))
    ∧ (∀ r, (video_url_meta_data env url n fs).res = Except.ok r →
        ∃ m, env.ydl_meta url = some m
          ∧ r = dictSetV (dictSetV m "title" (pyGet m "title"))
              "description" (pyGet m "description"))
    ∧ (∀ u, (download_audio env url out rate n fs).res = Except.ok u →
        u = ()) := by
  refine ⟨fun e h => errNE_download_audio env url out rate n fs e h,
          fun e h => errNE_download_video env url out n fs e h,
          fun e h => errNE_download_thumbnail env url out n fs e h,
          fun e h => errNE_download_bad env url out pa n fs e h,
          fun e h => errNE_video_url_meta_data env url n fs e h,
          ?_,
          fun r h => video_url_meta_data_ok_shape h,
          fun u _ => rfl⟩
  rw [is_valid_video_url_run]

/-- Witness for C8 (amended) at an environment with an unreachable URL:
the raised message is non-empty, the validity check returns the boolean
false, and the successful downloader return value is unit. -/
theorem c8_witness :
    ("Invalid video URL" : String) ≠ ""
    ∧ (is_valid_video_url envC8fail "u" 0 []).res = Except.ok false
    ∧ (() : Unit) = () :=
  ⟨(c8_amended_interface envC8fail "u" outC8 44100 0 [] none).1
      "Invalid video URL" (by decide),
   (c8_amended_interface envC8fail "u" outC8 44100 0 []
      none).2.2.2.2.2.1,
   (c8_amended_interface envHappy "u" outC8 44100 0 []
      none).2.2.2.2.2.2.2 () (by decide)⟩

/-- Success of a run whose final step checked a boolean forces that
boolean. -/
theorem ok_of_ite_res {p : Bool} {msg : String} {fsr : FS} {k : Nat}
    {l : List Ev}
    (h : (Res.mk (if p then Except.ok () else Except.error msg) fsr k
        l).res = Except.ok ()) : p = true := by
  by_cases hp : p = true
  · exact hp
  · rw [Bool.not_eq_true] at hp
    rw [hp] at h
    simp at h

/-- C6: in each downloader, when the extension of the first produced file
differs (case-insensitively) from the requested destination extension,
the corresponding external converter is invoked — the audio transcoder
with the caller's target sample rate for `download_audio`, the video
transcoder for `download_video`, the PIL re-encode for
`download_thumbnail` — and on success the destination holds the
converter's output; when the extensions agree, no converter is invoked
and on success the destination holds the produced file verbatim
(copied, or moved for `download_video`). -/
theorem c6_format_reconciliation (env : Env) (url : String)
    (outa outv outt : FPath) (rate na nv nt : Nat) (fsa fsv fst2 : FS)
    (ea ev2 et : String) (da dv dt dpt : FileData)
    (ra rv rt : List (String × FileData))
    (hw : env.working_url url = true)
    (hfa : env.ydl_files url DlMode.audio = some ((ea, da) :: ra))
    (hva : da.valid_audio = true)
    (hfv : env.ydl_files url DlMode.video = some ((ev2, dv) :: rv))
    (hvv : dv.valid_video = true)
    (hft : env.ydl_files url DlMode.thumb = some ((et, dt) :: rt))
    (hpt : env.pil_save dt outt.ext = some dpt) :
    (if pyLower ea = pyLower outa.ext then
       Ev.soundConvert ∉ (download_audio env url outa rate na fsa).ev
       ∧ ((download_audio env url outa rate na fsa).res = Except.ok () →
           lookupFS (download_audio env url outa rate na fsa).fs outa
             = some da)
     else
       Ev.soundConvert ∈ (download_audio env url outa rate na fsa).ev
       ∧ ((download_audio env url outa rate na fsa).res = Except.ok () →
           lookupFS (download_audio env url outa rate na fsa).fs outa
             = some (env.sound_convert da (some rate))))
    ∧ (if pyLower ev2 = pyLower outv.ext then
       Ev.videoConvert ∉ (download_video env url outv nv fsv).ev
       ∧ ((download_video env url outv nv fsv).res = Except.ok () →
           lookupFS (download_video env url outv nv fsv).fs outv = some dv)
     else
       Ev.videoConvert ∈ (download_video env url outv nv fsv).ev
       ∧ ((download_video env url outv nv fsv).res = Except.ok () →
           lookupFS (download_video env url outv nv fsv).fs outv
             = some (env.video_convert dv)))
    ∧ (if pyLower et = pyLower outt.ext then
       Ev.pilConvert ∉ (download_thumbnail env url outt nt fst2).ev
       ∧ ((download_thumbnail env url outt nt fst2).res = Except.ok () →
           lookupFS (download_thumbnail env url outt nt fst2).fs outt
             = some dt)
     else
       Ev.pilConvert ∈ (download_thumbnail env url outt nt fst2).ev
       ∧ ((download_thumbnail env url outt nt fst2).res = Except.ok () →
           lookupFS (download_thumbnail env url outt nt fst2).fs outt
             = some dpt)) := by
  refine ⟨?_, ?_, ?_⟩
  · by_cases hext : pyLower ea = pyLower outa.ext
    · rw [if_pos hext, download_audio_run_copy hw hfa hva hext]
      refine ⟨by simp, fun hok => ?_⟩
      exact lookup_write_removeDir (isSome_of_validAudio (ok_of_ite_res hok))
    · rw [if_neg hext, download_audio_run_convert hw hfa hva hext]
      refine ⟨by simp, fun hok => ?_⟩
      exact lookup_write_removeDir (isSome_of_validAudio (ok_of_ite_res hok))
  · by_cases hext : pyLower ev2 = pyLower outv.ext
    · rw [if_pos hext, download_video_run_move hw hfv hvv hext]
      refine ⟨by simp, fun hok => ?_⟩
      exact lookup_write_removeDir (ok_of_ite_res hok)
    · rw [if_neg hext, download_video_run_convert hw hfv hvv hext]
      refine ⟨by simp, fun hok => ?_⟩
      exact lookup_write_removeDir (ok_of_ite_res hok)
  · by_cases hext : pyLower et = pyLower outt.ext
    · rw [if_pos hext, download_thumbnail_run_copy hft hext]
      refine ⟨by simp, fun hok => ?_⟩
      exact lookup_write_removeDir (ok_of_ite_res hok)
    · rw [if_neg hext, download_thumbnail_run_convert hft hpt hext]
      refine ⟨by simp, fun hok => ?_⟩
      exact lookup_write_removeDir (ok_of_ite_res hok)

/-- Witness for C6 at the happy-path environment (extensions agree, so
the verbatim branches are exercised). -/
theorem c6_witness :
    (if pyLower "mp3" = pyLower outWA.ext then
       Ev.soundConvert ∉ (download_audio envHappy "u" outWA 44100 0 []).ev
       ∧ ((download_audio envHappy "u" outWA 44100 0 []).res = Except.ok ()
          → lookupFS (download_audio envHappy "u" outWA 44100 0 []).fs outWA
             = some audioD)
     else
       Ev.soundConvert ∈ (download_audio envHappy "u" outWA 44100 0 []).ev
       ∧ ((download_audio envHappy "u" outWA 44100 0 []).res = Except.ok ()
          → lookupFS (download_audio envHappy "u" outWA 44100 0 []).fs outWA
             = some (envHappy.sound_convert audioD (some 44100))))
    ∧ (if pyLower "mp4" = pyLower outWV.ext then
       Ev.videoConvert ∉ (download_video envHappy "u" outWV 0 []).ev
       ∧ ((download_video envHappy "u" outWV 0 []).res = Except.ok () →
           lookupFS (download_video envHappy "u" outWV 0 []).fs outWV
             = some videoD)
     else
       Ev.videoConvert ∈ (download_video envHappy "u" outWV 0 []).ev
       ∧ ((download_video envHappy "u" outWV 0 []).res = Except.ok () →
           lookupFS (download_video envHappy "u" outWV 0 []).fs outWV
             = some (envHappy.video_convert videoD)))
    ∧ (if pyLower "jpg" = pyLower outWT.ext then
       Ev.pilConvert ∉ (download_thumbnail envHappy "u" outWT 0 []).ev
       ∧ ((download_thumbnail envHappy "u" outWT 0 []).res = Except.ok () →
           lookupFS (download_thumbnail envHappy "u" outWT 0 []).fs outWT
             = some imgD)
     else
       Ev.pilConvert ∈ (download_thumbnail envHappy "u" outWT 0 []).ev
       ∧ ((download_thumbnail envHappy "u" outWT 0 []).res = Except.ok () →
           lookupFS (download_thumbnail envHappy "u" outWT 0 []).fs outWT
             = some imgD)) :=
  c6_format_reconciliation envHappy "u" outWA outWV outWT 44100 0 0 0
    [] [] [] "mp3" "mp4" "jpg" audioD videoD imgD imgD [] [] []
    (by decide) rfl (by decide) rfl (by decide) rfl rfl

/-- C7: on every successful composite run — under the documented
contracts of the external transcoder (the 240p strip conversion yields
height 240) and of the stream-copy/AAC mux (it preserves the copied video
stream's height and adds an audio track) — the destination holds a file
that passes the video validator, has height exactly 240 and has an audio
track; the strip conversion and the copy/AAC mux are invoked; when no
audio file is supplied, the audio is downloaded (extraction tool invoked
in audio mode, into the scratch mp3); and when a supplied audio file is
not mp3, the audio transcoder is invoked to convert it to mp3 first. -/
theorem c7_bad_video_good_sound (env : Env) (url : String) (out : FPath)
    (pa : Option FPath) (n : Nat) (fs : FS)
    (hstrip : ∀ d, (env.video_convert_strip240 d).height = 240)
    (hmuxh : ∀ v a m, env.mux_copy_aac v a = some m → m.height = v.height)
    (hmuxs : ∀ v a m, env.mux_copy_aac v a = some m → m.has_sound = true)
    (hok : (download_bad_video_with_good_sound env url out pa n fs).res
        = Except.ok ()) :
    (∃ dm, lookupFS
        (download_bad_video_with_good_sound env url out pa n fs).fs out
          = some dm
      ∧ dm.valid_video = true ∧ dm.height = 240 ∧ dm.has_sound = true)
    ∧ Ev.videoConvertStrip
        ∈ (download_bad_video_with_good_sound env url out pa n fs).ev
    ∧ Ev.muxCopyAac
        ∈ (download_bad_video_with_good_sound env url out pa n fs).ev
    ∧ (pa = none → Ev.ydlDownload url DlMode.audio
        ∈ (download_bad_video_with_good_sound env url out pa n fs).ev)
    ∧ (∀ p, pa = some p → pyLower p.ext ≠ "mp3" → Ev.soundConvert
        ∈ (download_bad_video_with_good_sound env url out pa n fs).ev) := by
  obtain ⟨dv, da, dm, hmux, hlook, hstripmem, hmuxmem⟩ :=
    download_bad_ok_anatomy hok
  obtain ⟨hnone, hsome⟩ := download_bad_audio_events hok
  have hvalid := download_bad_ok_valid hok
  have hdmv : dm.valid_video = true := by
    unfold isValidVideoAt at hvalid
    rw [hlook] at hvalid
    exact hvalid
  have hh : dm.height = 240 := by
    rw [hmuxh _ _ _ hmux, hstrip]
  have hs : dm.has_sound = true := hmuxs _ _ _ hmux
  exact ⟨⟨dm, hlook, hdmv, hh, hs⟩, hstripmem, hmuxmem, hnone, hsome⟩

/-- Witness for C7 at the happy-path environment (no supplied audio). -/
theorem c7_witness :
    Ev.muxCopyAac
      ∈ (download_bad_video_with_good_sound envHappy "u" outWB none 0
          []).ev :=
  (c7_bad_video_good_sound envHappy "u" outWB none 0 []
    (fun d => rfl)
    (fun v a m hm => by
      have h' : FileData.mk false true v.height true = m := by
        simpa [envHappy] using hm
      rw [← h'])
    (fun v a m hm => by
      have h' : FileData.mk false true v.height true = m := by
        simpa [envHappy] using hm
      rw [← h'])
    (by decide)).2.2.1
